import Mathlib

/-!
# Subscription aggregator: validation and query construction

A shallow embedding of `internal/validation/validation.go` and of the query
building part of `internal/handlers/subscription.go`.

Conventions of the embedding:

* A Go `string` that reaches this code was decoded from JSON, so it is valid
  UTF-8; it is embedded as a Lean `String` (a sequence of Unicode scalar
  values).  Go's `len(s)` is the number of bytes of the UTF-8 encoding
  (`goLen`), not the number of characters (`String.length`).
* A Go `(T, error)` result is embedded as `Except String T`, and an `error`
  result that is either `nil` or a `ValidationErrors` value as
  `Option ValidationErrors` (`none` is `nil`).
* Go `int` is 64 bits wide; the only arithmetic on it happens inside
  `strconv.Atoi`, whose range check is kept.
-/

namespace SubscriptionAggregator

/-! ## Strings -/

/-- Go `len(s)` for a string: the number of bytes of its UTF-8 encoding. -/
def goLen (s : String) : Nat :=
  s.utf8ByteSize

/-- Go `strings.Split(s, sep)` for a one-character separator, on the characters
of `s`: the pieces between consecutive separators, so a string with `k`
separators gives `k + 1` pieces and the empty string gives one empty piece. -/
def stringsSplit (sep : Char) : List Char → List (List Char)
  | [] => [[]]
  | c :: cs =>
    if c = sep then [] :: stringsSplit sep cs
    else
      match stringsSplit sep cs with
      | [] => [[c]]
      | p :: ps => (c :: p) :: ps

/-- Value of an ASCII decimal digit, as in `ch -= '0'; if ch > 9 { error }`. -/
def digitVal (c : Char) : Option Nat :=
  if 48 ≤ c.toNat ∧ c.toNat ≤ 57 then some (c.toNat - 48) else none

/-- The digit loop of `strconv.Atoi` / `strconv.ParseUint` in base 10:
`n = n*10 + digit`, failing on the first character that is not a digit.
The accumulator is unbounded here; the range check is made by `Atoi`. -/
def parseDigits : List Char → Nat → Option Nat
  | [], n => some n
  | c :: cs, n =>
    match digitVal c with
    | none => none
    | some d => parseDigits cs (n * 10 + d)

/-- Go `strconv.Atoi` on a 64-bit platform, `none` standing for `err != nil`:
an optional sign `+` or `-`, then at least one ASCII decimal digit and nothing
else; a value outside the `int64` range is a range error. -/
def Atoi (s : List Char) : Option Int :=
  match s with
  | [] => none
  | c :: rest =>
    let neg := decide (c = '-')
    let digits := if c = '-' ∨ c = '+' then rest else s
    match digits with
    | [] => none
    | _ :: _ =>
      match parseDigits digits 0 with
      | none => none
      | some n =>
        if neg then
          if n > 2 ^ 63 then none else some (-(n : Int))
        else
          if n ≥ 2 ^ 63 then none else some (n : Int)

/-! ## Time values -/

/-- Go `*time.Location`, as far as this program is concerned. -/
inductive Location where
  | UTC
  | Local
  deriving DecidableEq, Repr

/-- A Go `time.Time`, by its calendar fields. -/
structure Time where
  year : Int
  month : Int
  day : Int
  hour : Int
  minute : Int
  second : Int
  nanosecond : Int
  loc : Location
  deriving DecidableEq, Repr

/-- Go `time.Date(year, month, day, hour, min, sec, nsec, loc)`.  Go normalises
out-of-range fields; the only call site passes a month in `[1,12]`, day 1 and
zeros, for which the normalisation is the identity. -/
def timeDate (year month day hour minute second nanosecond : Int) (loc : Location) : Time :=
  { year := year, month := month, day := day, hour := hour, minute := minute,
    second := second, nanosecond := nanosecond, loc := loc }

/-! ## `ParseMonthYear` -/

deriving instance DecidableEq for Except

/-- The body of `ParseMonthYear`, on the characters of the token. -/
def parseMonthYearChars (dateStr : List Char) : Except String Time :=
  match stringsSplit '-' dateStr with
  | [p0, p1] =>
    match Atoi p0 with
    | none => Except.error "invalid month"
    | some month =>
      if month < 1 ∨ month > 12 then Except.error "invalid month"
      else
        match Atoi p1 with
        | none => Except.error "invalid year"
        | some year =>
          if year < 1900 ∨ year > 2100 then Except.error "invalid year"
          else Except.ok (timeDate year month 1 0 0 0 0 Location.UTC)
  | _ => Except.error "invalid date format"

/-- Function `ParseMonthYear` parses a date in MM-YYYY format. -/
def ParseMonthYear (dateStr : String) : Except String Time :=
  parseMonthYearChars dateStr.data

/-- Whether `ParseMonthYear` returns a nil error. -/
def parseOk (dateStr : String) : Bool :=
  match ParseMonthYear dateStr with
  | Except.ok _ => true
  | Except.error _ => false

/-! ## Identifiers -/

/-- Go `uuid.UUID`, an array of 16 bytes. -/
structure UUID where
  bytes : List (Fin 256)
  size : bytes.length = 16
  deriving DecidableEq

/-- One digit of `hex.Encode`, from the table `0123456789abcdef`. -/
def hexDigit (n : Nat) : Char :=
  if n < 10 then Char.ofNat (48 + n) else Char.ofNat (87 + n)

/-- Go `hex.Encode`: two lower-case hexadecimal digits per byte. -/
def hexEncode : List (Fin 256) → List Char
  | [] => []
  | b :: bs => hexDigit (b.val / 16) :: hexDigit (b.val % 16) :: hexEncode bs

/-- Go `UUID.String()`: the form `xxxxxxxx-xxxx-xxxx-xxxx-xxxxxxxxxxxx`, written
by `encodeHex` into a buffer of 36 bytes. -/
def uuidString (u : UUID) : String :=
  String.mk (hexEncode (u.bytes.take 4) ++ '-' :: hexEncode ((u.bytes.drop 4).take 2) ++
    '-' :: hexEncode ((u.bytes.drop 6).take 2) ++ '-' :: hexEncode ((u.bytes.drop 8).take 2) ++
    '-' :: hexEncode (u.bytes.drop 10))

/-! ## Requests and validation errors -/

/-- A validation error: the field it is tagged with and a message. -/
structure ValidationError where
  Field : String
  Message : String
  deriving DecidableEq, Repr

/-- Several validation errors, in the order they were appended. -/
abbrev ValidationErrors := List ValidationError

/-- The errors carried by an `error` result: none for `nil`. -/
def errorsOf (r : Option ValidationErrors) : ValidationErrors :=
  match r with
  | none => []
  | some es => es

/-- The tail of every validator: `if len(errors) > 0 { return errors }; return nil`. -/
def returnErrors (errors : ValidationErrors) : Option ValidationErrors :=
  if errors.length > 0 then some errors else none

/-- The decoded body of `POST /subscriptions`. -/
structure CreateSubscriptionRequest where
  ServiceName : String
  Price : Int
  UserID : String
  StartDate : String
  EndDate : String
  deriving DecidableEq

/-- The decoded body of `PUT /subscriptions/ID`; an absent field decodes to the
zero value (empty string, 0). -/
structure UpdateSubscriptionRequest where
  ServiceName : String
  Price : Int
  StartDate : String
  EndDate : String
  deriving DecidableEq

/-- The decoded body of `POST /subscriptions/aggregate`; the pointer fields are
options. -/
structure AggregationRequest where
  UserID : Option UUID
  ServiceName : Option String
  StartDate : String
  EndDate : String
  deriving DecidableEq

/-! ## The request validators

`uuid.Parse` belongs to a library outside the repository; the validators take it
as the parameter `uuidParse`, `none` standing for `err != nil`. -/

/-- Function `ValidateCreateSubscription` validates a `CreateSubscriptionRequest`. -/
def ValidateCreateSubscription (uuidParse : String → Option UUID)
    (req : CreateSubscriptionRequest) : Option ValidationErrors :=
  let errors : ValidationErrors := []
  let errors :=
    if req.ServiceName = "" then
      errors ++ [{ Field := "service_name", Message := "название сервиса обязательно" }]
    else if goLen req.ServiceName > 255 then
      errors ++ [{ Field := "service_name",
                   Message := "название сервиса не должно превышать 255 символов" }]
    else errors
  let errors :=
    if req.Price < 0 then
      errors ++ [{ Field := "price", Message := "стоимость не может быть отрицательной" }]
    else errors
  let errors :=
    if req.UserID = "" then
      errors ++ [{ Field := "user_id", Message := "ID пользователя обязателен" }]
    else if (uuidParse req.UserID).isNone then
      errors ++ [{ Field := "user_id", Message := "ID пользователя должен быть в формате UUID" }]
    else errors
  let errors :=
    if req.StartDate = "" then
      errors ++ [{ Field := "start_date", Message := "дата начала обязательна" }]
    else if !parseOk req.StartDate then
      errors ++ [{ Field := "start_date", Message := "дата начала должна быть в формате MM-YYYY" }]
    else errors
  let errors :=
    if req.EndDate ≠ "" then
      if !parseOk req.EndDate then
        errors ++ [{ Field := "end_date",
                     Message := "дата окончания должна быть в формате MM-YYYY" }]
      else errors
    else errors
  returnErrors errors

/-- Function `ValidateUpdateSubscription` validates an `UpdateSubscriptionRequest`. -/
def ValidateUpdateSubscription (req : UpdateSubscriptionRequest) : Option ValidationErrors :=
  let errors : ValidationErrors := []
  let errors :=
    if req.ServiceName ≠ "" ∧ goLen req.ServiceName > 255 then
      errors ++ [{ Field := "service_name",
                   Message := "название сервиса не должно превышать 255 символов" }]
    else errors
  let errors :=
    if req.Price < 0 then
      errors ++ [{ Field := "price", Message := "стоимость не может быть отрицательной" }]
    else errors
  let errors :=
    if req.StartDate ≠ "" then
      if !parseOk req.StartDate then
        errors ++ [{ Field := "start_date",
                     Message := "дата начала должна быть в формате MM-YYYY" }]
      else errors
    else errors
  let errors :=
    if req.EndDate ≠ "" then
      if req.EndDate = "null" then errors
      else if !parseOk req.EndDate then
        errors ++ [{ Field := "end_date",
                     Message := "дата окончания должна быть в формате MM-YYYY" }]
      else errors
    else errors
  returnErrors errors

/-- Function `ValidateAggregationRequest` validates an `AggregationRequest`. -/
def ValidateAggregationRequest (req : AggregationRequest) : Option ValidationErrors :=
  let errors : ValidationErrors := []
  let errors :=
    if req.StartDate = "" then
      errors ++ [{ Field := "start_date", Message := "дата начала обязательна" }]
    else if !parseOk req.StartDate then
      errors ++ [{ Field := "start_date", Message := "дата начала должна быть в формате MM-YYYY" }]
    else errors
  let errors :=
    if req.EndDate = "" then
      errors ++ [{ Field := "end_date", Message := "дата окончания обязательна" }]
    else if !parseOk req.EndDate then
      errors ++ [{ Field := "end_date",
                   Message := "дата окончания должна быть в формате MM-YYYY" }]
    else errors
  let errors :=
    match req.UserID with
    | some userID =>
      if uuidString userID = "" then
        errors ++ [{ Field := "user_id", Message := "ID пользователя не может быть пустым" }]
      else errors
    | none => errors
  let errors :=
    match req.ServiceName with
    | some serviceName =>
      if goLen serviceName > 255 then
        errors ++ [{ Field := "service_name",
                     Message := "название сервиса не должно превышать 255 символов" }]
      else errors
    | none => errors
  returnErrors errors

/-! ## The field whitelist -/

/-- A Go `map[string]bool` read with `m[k]`: a missing key reads as `false`. -/
abbrev BoolMap := String → Bool

/-- The assignment `m[k] = v`. -/
def BoolMap.set (m : BoolMap) (k : String) (v : Bool) : BoolMap :=
  fun x => if x = k then v else m x

/-- Function `ValidateJSONFields` validates that only allowed fields are present in JSON.
The payload `map[string]interface{}` is given by its entries in the order the
`range` loop visits them; its keys are pairwise distinct. -/
def ValidateJSONFields {α : Type} (data : List (String × α)) (allowedFields : List String) :
    Option ValidationErrors :=
  let allowedFieldsMap : BoolMap :=
    allowedFields.foldl (fun m field => m.set field true) (fun _ => false)
  let errors : ValidationErrors :=
    data.foldl
      (fun errors entry =>
        if !allowedFieldsMap entry.1 then
          errors ++ [{ Field := entry.1, Message := "поле не разрешено" }]
        else errors)
      []
  returnErrors errors

/-- Function `GetAllowedFieldsForCreate` returns allowed fields for creating subscription. -/
def GetAllowedFieldsForCreate : List String :=
  ["service_name", "price", "user_id", "start_date", "end_date"]

/-- Function `GetAllowedFieldsForUpdate` returns allowed fields for updating subscription. -/
def GetAllowedFieldsForUpdate : List String :=
  ["service_name", "price", "start_date", "end_date"]

/-- Function `GetAllowedFieldsForAggregation` returns allowed fields for aggregation. -/
def GetAllowedFieldsForAggregation : List String :=
  ["user_id", "service_name", "start_date", "end_date"]

/-! ## The partial update query builder -/

/-- A value bound to a placeholder: an element of the `[]interface{}` argument
list.  `null` is the Go `nil`, which the store writes as SQL `NULL`. -/
inductive Value where
  | str (s : String)
  | int (n : Int)
  | time (t : Time)
  | uuid (u : UUID)
  | null
  deriving DecidableEq

/-- The effect of `http.Error(w, message, status)`. -/
structure HTTPError where
  message : String
  status : Nat
  deriving DecidableEq

/-- The local variables `setParts`, `args` and `argCount` of `UpdateSubscription`. -/
structure QueryBuilder where
  setParts : List String
  args : List Value
  argCount : Nat
  deriving DecidableEq

/-- The statement `UpdateSubscription` hands to `h.db.Exec(query, args...)`,
together with the `setParts` it was joined from. -/
structure UpdateStatement where
  setParts : List String
  query : String
  args : List Value
  deriving DecidableEq

/-- The body of every handler's validation failure: the messages joined by `; `. -/
def validationFailed (validationErrors : ValidationErrors) : HTTPError :=
  { message := "; ".intercalate (validationErrors.map ValidationError.Message), status := 400 }

/-- The handler `UpdateSubscription` from the validation of the decoded request up to the
call of `h.db.Exec`: either the response written by `http.Error`, or the
statement to execute.  `id` is the parsed path identifier and `now` the value
of `time.Now()`. -/
def updateStatement (id : UUID) (now : Time) (req : UpdateSubscriptionRequest) :
    Except HTTPError UpdateStatement :=
  match ValidateUpdateSubscription req with
  | some validationErrors => Except.error (validationFailed validationErrors)
  | none =>
    let b : QueryBuilder := { setParts := [], args := [], argCount := 1 }
    let b : QueryBuilder :=
      if req.ServiceName ≠ "" then
        { setParts := b.setParts ++ ["service_name = $" ++ toString b.argCount],
          args := b.args ++ [Value.str req.ServiceName],
          argCount := b.argCount + 1 }
      else b
    let b : QueryBuilder :=
      if req.Price > 0 then
        { setParts := b.setParts ++ ["price = $" ++ toString b.argCount],
          args := b.args ++ [Value.int req.Price],
          argCount := b.argCount + 1 }
      else b
    let afterStart : Except HTTPError QueryBuilder :=
      if req.StartDate ≠ "" then
        match ParseMonthYear req.StartDate with
        | Except.error _ =>
          Except.error { message := "Invalid start date format (use MM-YYYY)", status := 400 }
        | Except.ok startDate =>
          Except.ok
            { setParts := b.setParts ++ ["start_date = $" ++ toString b.argCount],
              args := b.args ++ [Value.time startDate],
              argCount := b.argCount + 1 }
      else Except.ok b
    match afterStart with
    | Except.error e => Except.error e
    | Except.ok b =>
      let afterEnd : Except HTTPError QueryBuilder :=
        if req.EndDate ≠ "" then
          if req.EndDate = "null" then
            Except.ok
              { setParts := b.setParts ++ ["end_date = $" ++ toString b.argCount],
                args := b.args ++ [Value.null],
                argCount := b.argCount + 1 }
          else
            match ParseMonthYear req.EndDate with
            | Except.error _ =>
              Except.error { message := "Invalid end date format (use MM-YYYY)", status := 400 }
            | Except.ok endDate =>
              Except.ok
                { setParts := b.setParts ++ ["end_date = $" ++ toString b.argCount],
                  args := b.args ++ [Value.time endDate],
                  argCount := b.argCount + 1 }
        else Except.ok b
      match afterEnd with
      | Except.error e => Except.error e
      | Except.ok b =>
        if b.setParts.length = 0 then
          Except.error { message := "No fields to update", status := 400 }
        else
          let b : QueryBuilder :=
            { setParts := b.setParts ++ ["updated_at = $" ++ toString b.argCount],
              args := b.args ++ [Value.time now],
              argCount := b.argCount + 1 }
          let args := b.args ++ [Value.uuid id]
          let query :=
            "UPDATE subscriptions SET " ++ ", ".intercalate b.setParts ++ " WHERE id = $" ++
              toString b.argCount
          Except.ok { setParts := b.setParts, query := query, args := args }

/-! ## The handlers and the store interface -/

/-- What a handler writes to the `http.ResponseWriter`: the status code and the
text of the body (the message given to `http.Error`, empty for a bare
`WriteHeader`). -/
structure Response where
  status : Nat
  body : String
  deriving DecidableEq

/-- The outcome of `h.db.Exec(query, args...)` followed by `result.RowsAffected()`:
the outer error is the one of `Exec`, the inner one the one of `RowsAffected`. -/
abbrev ExecOutcome := Except String (Except String Int)

/-- The handler `UpdateSubscription`.  `idStr` is the request path without the
prefix `/subscriptions/`, `body` the decoded request (`none` when decoding
fails), `exec` the store's `Exec` acting on the store state `db`. -/
def UpdateSubscription {σ : Type} (uuidParse : String → Option UUID)
    (exec : σ → String → List Value → ExecOutcome × σ) (now : Time) (idStr : String)
    (body : Option UpdateSubscriptionRequest) (db : σ) : Response × σ :=
  match uuidParse idStr with
  | none => ({ status := 400, body := "Invalid subscription ID" }, db)
  | some id =>
    match body with
    | none => ({ status := 400, body := "Invalid JSON" }, db)
    | some req =>
      match updateStatement id now req with
      | Except.error e => ({ status := e.status, body := e.message }, db)
      | Except.ok stmt =>
        match exec db stmt.query stmt.args with
        | (Except.error _, db) =>
          ({ status := 500, body := "Failed to update subscription" }, db)
        | (Except.ok (Except.error _), db) =>
          ({ status := 500, body := "Failed to update subscription" }, db)
        | (Except.ok (Except.ok rowsAffected), db) =>
          if rowsAffected = 0 then ({ status := 404, body := "Subscription not found" }, db)
          else ({ status := 200, body := "" }, db)

/-- The handler `DeleteSubscription`, with the same conventions. -/
def DeleteSubscription {σ : Type} (uuidParse : String → Option UUID)
    (exec : σ → String → List Value → ExecOutcome × σ) (idStr : String) (db : σ) :
    Response × σ :=
  match uuidParse idStr with
  | none => ({ status := 400, body := "Invalid subscription ID" }, db)
  | some id =>
    match exec db "DELETE FROM subscriptions WHERE id = $1" [Value.uuid id] with
    | (Except.error _, db) =>
      ({ status := 500, body := "Failed to delete subscription" }, db)
    | (Except.ok (Except.error _), db) =>
      ({ status := 500, body := "Failed to delete subscription" }, db)
    | (Except.ok (Except.ok rowsAffected), db) =>
      if rowsAffected = 0 then ({ status := 404, body := "Subscription not found" }, db)
      else ({ status := 204, body := "" }, db)

/-! ## The record store

The store is a relational database outside the repository.  It is modelled as
the list of the rows of the table `subscriptions`. -/

/-- A row of the table `subscriptions` (`models.Subscription`). -/
structure Subscription where
  ID : UUID
  ServiceName : String
  Price : Int
  UserID : UUID
  StartDate : Time
  EndDate : Option Time
  CreatedAt : Time
  UpdatedAt : Time
  deriving DecidableEq

/-- Modelled from the spec: the store's `delete(id) -> rows_affected`, as the
statement `DELETE FROM subscriptions WHERE id = $1` acts on the rows: the rows
with that identifier are removed and their number is returned; the store
itself never fails.  Any other statement is refused. -/
def storeExec (db : List Subscription) (query : String) (args : List Value) :
    ExecOutcome × List Subscription :=
  if query = "DELETE FROM subscriptions WHERE id = $1" then
    match args with
    | [Value.uuid id] =>
      (Except.ok (Except.ok ((db.filter (fun r => decide (r.ID = id))).length : Int)),
        db.filter (fun r => decide (r.ID ≠ id)))
    | _ => (Except.error "wrong arguments", db)
  else (Except.error "statement not modelled", db)

/-- A store that only records the statements it is asked to execute and reports
one affected row. -/
def recordingExec (log : List (String × List Value)) (query : String) (args : List Value) :
    ExecOutcome × List (String × List Value) :=
  (Except.ok (Except.ok 1), log ++ [(query, args)])


/-- A statement handed to the store: its text and its bound arguments. -/
structure Statement where
  query : String
  args : List Value
  deriving DecidableEq

/-- The handler `CreateSubscription` from the validation of the decoded request
up to the call of `h.db.QueryRowx`: either the response written by
`http.Error`, or the INSERT statement.  A nil `endDate` pointer is bound as
`null`. -/
def createStatement (uuidParse : String → Option UUID) (req : CreateSubscriptionRequest) :
    Except HTTPError Statement :=
  match ValidateCreateSubscription uuidParse req with
  | some validationErrors => Except.error (validationFailed validationErrors)
  | none =>
    match uuidParse req.UserID with
    | none => Except.error { message := "Invalid user ID format", status := 400 }
    | some userID =>
      match ParseMonthYear req.StartDate with
      | Except.error _ =>
        Except.error { message := "Invalid start date format (use MM-YYYY)", status := 400 }
      | Except.ok startDate =>
        let endDate : Except HTTPError Value :=
          if req.EndDate ≠ "" then
            match ParseMonthYear req.EndDate with
            | Except.error _ =>
              Except.error { message := "Invalid end date format (use MM-YYYY)", status := 400 }
            | Except.ok parsedEndDate => Except.ok (Value.time parsedEndDate)
          else Except.ok Value.null
        match endDate with
        | Except.error e => Except.error e
        | Except.ok endDate =>
          Except.ok
            { query :=
                "\n\t\tINSERT INTO subscriptions (service_name, price, user_id, start_date, end_date)\n\t\tVALUES ($1, $2, $3, $4, $5)\n\t\tRETURNING id, service_name, price, user_id, start_date, end_date, created_at, updated_at",
              args := [Value.str req.ServiceName, Value.int req.Price, Value.uuid userID,
                Value.time startDate, endDate] }

/-- The builder of `updateStatement` with the parser it calls after validation
as a parameter; `updateStatement` is the instance at `ParseMonthYear`. -/
def updateStatementWith (parse : String → Except String Time) (id : UUID) (now : Time)
    (req : UpdateSubscriptionRequest) : Except HTTPError UpdateStatement :=
  match ValidateUpdateSubscription req with
  | some validationErrors => Except.error (validationFailed validationErrors)
  | none =>
    let b : QueryBuilder := { setParts := [], args := [], argCount := 1 }
    let b : QueryBuilder :=
      if req.ServiceName ≠ "" then
        { setParts := b.setParts ++ ["service_name = $" ++ toString b.argCount],
          args := b.args ++ [Value.str req.ServiceName],
          argCount := b.argCount + 1 }
      else b
    let b : QueryBuilder :=
      if req.Price > 0 then
        { setParts := b.setParts ++ ["price = $" ++ toString b.argCount],
          args := b.args ++ [Value.int req.Price],
          argCount := b.argCount + 1 }
      else b
    let afterStart : Except HTTPError QueryBuilder :=
      if req.StartDate ≠ "" then
        match parse req.StartDate with
        | Except.error _ =>
          Except.error { message := "Invalid start date format (use MM-YYYY)", status := 400 }
        | Except.ok startDate =>
          Except.ok
            { setParts := b.setParts ++ ["start_date = $" ++ toString b.argCount],
              args := b.args ++ [Value.time startDate],
              argCount := b.argCount + 1 }
      else Except.ok b
    match afterStart with
    | Except.error e => Except.error e
    | Except.ok b =>
      let afterEnd : Except HTTPError QueryBuilder :=
        if req.EndDate ≠ "" then
          if req.EndDate = "null" then
            Except.ok
              { setParts := b.setParts ++ ["end_date = $" ++ toString b.argCount],
                args := b.args ++ [Value.null],
                argCount := b.argCount + 1 }
          else
            match parse req.EndDate with
            | Except.error _ =>
              Except.error { message := "Invalid end date format (use MM-YYYY)", status := 400 }
            | Except.ok endDate =>
              Except.ok
                { setParts := b.setParts ++ ["end_date = $" ++ toString b.argCount],
                  args := b.args ++ [Value.time endDate],
                  argCount := b.argCount + 1 }
        else Except.ok b
      match afterEnd with
      | Except.error e => Except.error e
      | Except.ok b =>
        if b.setParts.length = 0 then
          Except.error { message := "No fields to update", status := 400 }
        else
          let b : QueryBuilder :=
            { setParts := b.setParts ++ ["updated_at = $" ++ toString b.argCount],
              args := b.args ++ [Value.time now],
              argCount := b.argCount + 1 }
          let args := b.args ++ [Value.uuid id]
          let query :=
            "UPDATE subscriptions SET " ++ ", ".intercalate b.setParts ++ " WHERE id = $" ++
              toString b.argCount
          Except.ok { setParts := b.setParts, query := query, args := args }

/-- The query parameters of `GET /subscriptions`, as `r.URL.Query().Get` returns
them: the empty string for an absent parameter.  A value that is not valid
UTF-8 holds a byte above `0x7f`, which `strconv.Atoi` refuses like any other
character that is not a digit. -/
structure ListParams where
  user_id : String
  service_name : String
  limit : String
  offset : String
  deriving DecidableEq

/-- The local variables `conditions`, `args` and `argCount` of
`ListSubscriptions`. -/
structure ConditionBuilder where
  conditions : List String
  args : List Value
  argCount : Nat
  deriving DecidableEq

/-- The statement `ListSubscriptions` hands to `h.db.Select`, with the values of
its local variables `limit` and `offset`. -/
structure ListStatement where
  query : String
  args : List Value
  limit : Int
  offset : Int
  deriving DecidableEq

/-- The handler `ListSubscriptions` up to the call of `h.db.Select`. -/
def listStatement (uuidParse : String → Option UUID) (params : ListParams) :
    Except HTTPError ListStatement :=
  let query := "SELECT * FROM subscriptions"
  let b : ConditionBuilder := { conditions := [], args := [], argCount := 0 }
  let afterUser : Except HTTPError ConditionBuilder :=
    if params.user_id ≠ "" then
      match uuidParse params.user_id with
      | none => Except.error { message := "Invalid user ID format", status := 400 }
      | some userID =>
        let argCount := b.argCount + 1
        Except.ok
          { conditions := b.conditions ++ ["user_id = $" ++ toString argCount],
            args := b.args ++ [Value.uuid userID],
            argCount := argCount }
    else Except.ok b
  match afterUser with
  | Except.error e => Except.error e
  | Except.ok b =>
    let b : ConditionBuilder :=
      if params.service_name ≠ "" then
        let argCount := b.argCount + 1
        { conditions := b.conditions ++ ["service_name ILIKE $" ++ toString argCount],
          args := b.args ++ [Value.str ("%" ++ params.service_name ++ "%")],
          argCount := argCount }
      else b
    let query :=
      if b.conditions.length > 0 then query ++ " WHERE " ++ " AND ".intercalate b.conditions
      else query
    let query := query ++ " ORDER BY created_at DESC"
    let limit : Int :=
      if params.limit ≠ "" then
        match Atoi params.limit.data with
        | some parsedLimit => if parsedLimit > 0 ∧ parsedLimit ≤ 1000 then parsedLimit else 100
        | none => 100
      else 100
    let query := query ++ " LIMIT " ++ toString limit
    let paged : Int × String :=
      if params.offset ≠ "" then
        match Atoi params.offset.data with
        | some parsedOffset =>
          if parsedOffset ≥ 0 then (parsedOffset, query ++ " OFFSET " ++ toString parsedOffset)
          else (0, query)
        | none => (0, query)
      else (0, query)
    Except.ok { query := paged.2, args := b.args, limit := limit, offset := paged.1 }

/-- The body of a successful aggregation response. -/
structure AggregationResponse where
  TotalCost : Int
  Period : String
  UserID : Option UUID
  deriving DecidableEq

/-- The fixed part of the aggregation query. -/
def aggregateBaseQuery : String :=
  "\n\t\tSELECT COALESCE(SUM(price), 0) as total_cost\n\t\tFROM subscriptions\n\t\tWHERE start_date >= $1 AND (end_date IS NULL OR end_date <= $2)"

/-- The local variables `query`, `args` and `argCount` of
`AggregateSubscriptions`. -/
structure AggregateBuilder where
  query : String
  args : List Value
  argCount : Nat
  deriving DecidableEq

/-- The handler `AggregateSubscriptions` from the validation of the decoded
request up to the call of `h.db.Get`. -/
def aggregateStatement (req : AggregationRequest) : Except HTTPError Statement :=
  match ValidateAggregationRequest req with
  | some validationErrors => Except.error (validationFailed validationErrors)
  | none =>
    match ParseMonthYear req.StartDate with
    | Except.error _ =>
      Except.error { message := "Invalid start date format (use MM-YYYY)", status := 400 }
    | Except.ok startDate =>
      match ParseMonthYear req.EndDate with
      | Except.error _ =>
        Except.error { message := "Invalid end date format (use MM-YYYY)", status := 400 }
      | Except.ok endDate =>
        let b : AggregateBuilder :=
          { query := aggregateBaseQuery,
            args := [Value.time startDate, Value.time endDate],
            argCount := 2 }
        let b : AggregateBuilder :=
          match req.UserID with
          | some userID =>
            let argCount := b.argCount + 1
            { query := b.query ++ (" AND user_id = $" ++ toString argCount),
              args := b.args ++ [Value.uuid userID],
              argCount := argCount }
          | none => b
        let b : AggregateBuilder :=
          match req.ServiceName with
          | some serviceName =>
            let argCount := b.argCount + 1
            { query := b.query ++ (" AND service_name ILIKE $" ++ toString argCount),
              args := b.args ++ [Value.str ("%" ++ serviceName ++ "%")],
              argCount := argCount }
          | none => b
        Except.ok { query := b.query, args := b.args }

/-- The handler `AggregateSubscriptions`: `body` is the decoded request (`none`
when decoding fails) and `get` the store's `Get` of one integer column; the
result is the response written by `http.Error` or the encoded
`AggregationResponse`. -/
def AggregateSubscriptions {σ : Type} (get : σ → String → List Value → Except String Int)
    (body : Option AggregationRequest) (db : σ) : Except HTTPError AggregationResponse :=
  match body with
  | none => Except.error { message := "Invalid JSON", status := 400 }
  | some req =>
    match aggregateStatement req with
    | Except.error e => Except.error e
    | Except.ok stmt =>
      match get db stmt.query stmt.args with
      | Except.error _ =>
        Except.error { message := "Failed to aggregate subscriptions", status := 500 }
      | Except.ok totalCost =>
        Except.ok
          { TotalCost := totalCost,
            Period := req.StartDate ++ " to " ++ req.EndDate,
            UserID := req.UserID }

/-- Modelled from the spec: the order of two dates as the store compares them,
field by field from the year down (all dates are in UTC). -/
def timeLE (a b : Time) : Bool :=
  let rec go : List Int → List Int → Bool
    | x :: xs, y :: ys => decide (x < y) || (decide (x = y) && go xs ys)
    | _, _ => true
  go [a.year, a.month, a.day, a.hour, a.minute, a.second, a.nanosecond]
    [b.year, b.month, b.day, b.hour, b.minute, b.second, b.nanosecond]

/-- Modelled from the spec: the WHERE clause of the aggregation query on one row:
`start_date >= $1 AND (end_date IS NULL OR end_date <= $2)`, then
`AND user_id = $k` and `AND service_name ILIKE $k` for the filters given.
`ilike pattern text` is the store's `text ILIKE pattern`. -/
def rowSelected (ilike : String → String → Bool) (startDate endDate : Time)
    (userID : Option UUID) (pattern : Option String) (r : Subscription) : Bool :=
  timeLE startDate r.StartDate &&
  (match r.EndDate with
    | none => true
    | some e => timeLE e endDate) &&
  (match userID with
    | none => true
    | some u => decide (r.UserID = u)) &&
  (match pattern with
    | none => true
    | some p => ilike p r.ServiceName)

/-- Modelled from the spec: `COALESCE(SUM(price), 0)` over the selected rows. -/
def sumPrice (rows : List Subscription) : Int :=
  (rows.map Subscription.Price).sum

/-- Modelled from the spec: the store's `aggregate(query) -> total` on the four
statements `AggregateSubscriptions` can build; any other statement or argument
list is refused. -/
def storeGet (ilike : String → String → Bool) (db : List Subscription) (query : String)
    (args : List Value) : Except String Int :=
  if query = aggregateBaseQuery then
    match args with
    | [Value.time s, Value.time e] =>
      Except.ok (sumPrice (db.filter (rowSelected ilike s e none none)))
    | _ => Except.error "wrong arguments"
  else if query = aggregateBaseQuery ++ " AND user_id = $3" then
    match args with
    | [Value.time s, Value.time e, Value.uuid u] =>
      Except.ok (sumPrice (db.filter (rowSelected ilike s e (some u) none)))
    | _ => Except.error "wrong arguments"
  else if query = aggregateBaseQuery ++ " AND service_name ILIKE $3" then
    match args with
    | [Value.time s, Value.time e, Value.str p] =>
      Except.ok (sumPrice (db.filter (rowSelected ilike s e none (some p))))
    | _ => Except.error "wrong arguments"
  else if query = aggregateBaseQuery ++ " AND user_id = $3 AND service_name ILIKE $4" then
    match args with
    | [Value.time s, Value.time e, Value.uuid u, Value.str p] =>
      Except.ok (sumPrice (db.filter (rowSelected ilike s e (some u) (some p))))
    | _ => Except.error "wrong arguments"
  else Except.error "statement not modelled"

/-- Modelled from the spec: `ILIKE` for a pattern `%s%` whose `s` holds no
wildcard: `text` contains `s`, letter case aside. -/
def ilikeContains (pattern text : String) : Bool :=
  let needle := ((pattern.data.drop 1).dropLast).map Char.toLower
  let hay := text.data.map Char.toLower
  (List.range (hay.length + 1)).any (fun i => (hay.drop i).take needle.length == needle)

/-! ## Tokens and integer texts, as the specification words them -/

/-- The ASCII character of a decimal digit `d < 10`. -/
def digitChar (d : Nat) : Char :=
  Char.ofNat (48 + d)

/-- The token `MM-YYYY`: the month as two zero-padded decimal digits, one dash,
the year as four decimal digits. -/
def monthYearToken (m y : Nat) : String :=
  String.mk [digitChar (m / 10), digitChar (m % 10), '-',
    digitChar (y / 1000), digitChar (y / 100 % 10), digitChar (y / 10 % 10), digitChar (y % 10)]

/-- Decimal value of a run of digit characters, most significant first. -/
def decimalValue (ds : List Char) : Nat :=
  ds.foldl (fun n c => n * 10 + (c.toNat - 48)) 0

/-- The text `p` is an integer in `[lo, hi]`: an optional sign, then at least one
ASCII decimal digit and nothing else, the signed decimal value lying in the
range. -/
def IsIntegerIn (lo hi : Int) (p : List Char) : Prop :=
  ∃ sign digits : List Char,
    p = sign ++ digits ∧ (sign = [] ∨ sign = ['+'] ∨ sign = ['-']) ∧
    digits ≠ [] ∧ (∀ c ∈ digits, 48 ≤ c.toNat ∧ c.toNat ≤ 57) ∧
    lo ≤ (if sign = ['-'] then -(decimalValue digits : Int) else (decimalValue digits : Int)) ∧
    (if sign = ['-'] then -(decimalValue digits : Int) else (decimalValue digits : Int)) ≤ hi

/-- The `i`-th piece of the token split on dashes (`parts[i]`), empty when there
is no such piece. -/
def tokenPart (s : String) (i : Nat) : List Char :=
  ((stringsSplit '-' s.data).get? i).getD []

/-- Whether `strconv.Atoi` accepts the text with a value in `[lo, hi]`; in the
ranges the parser uses this decides `IsIntegerIn`. -/
def atoiIn (lo hi : Int) (p : List Char) : Bool :=
  match Atoi p with
  | none => false
  | some n => decide (lo ≤ n) && decide (n ≤ hi)

/-- The string consists of ASCII characters only. -/
def IsASCII (s : String) : Prop :=
  ∀ c ∈ s.data, c.toNat < 128

/-- The create rules of the specification, as the list of the fields whose rule
fails, in the order service_name, price, user_id, start_date, end_date:
service_name non-empty and at most 255 long; price at least 0; user_id non-empty
and accepted by the UUID parser; start_date non-empty and accepted by
`ParseMonthYear`; end_date empty or accepted by `ParseMonthYear`. -/
def createFailingRules (uuidParse : String → Option UUID) (req : CreateSubscriptionRequest) :
    List String :=
  (if req.ServiceName ≠ "" ∧ req.ServiceName.length ≤ 255 then [] else ["service_name"]) ++
  (if 0 ≤ req.Price then [] else ["price"]) ++
  (if req.UserID ≠ "" ∧ (uuidParse req.UserID).isSome then [] else ["user_id"]) ++
  (if req.StartDate ≠ "" ∧ parseOk req.StartDate = true then [] else ["start_date"]) ++
  (if req.EndDate = "" ∨ parseOk req.EndDate = true then [] else ["end_date"])

/-- A parser that accepts exactly one identifier text and returns the given
identifier for it: an instance of the parser parameter for concrete requests. -/
def uuidParseOnly (text : String) (u : UUID) (s : String) : Option UUID :=
  if s = text then some u else none

/-- The identifier whose 16 bytes are all `0xab`. -/
def sampleUUID : UUID :=
  { bytes := List.replicate 16 171, size := rfl }

/-- A service name of 128 Cyrillic letters: 128 characters, 256 bytes in UTF-8. -/
def cyrillicName : String :=
  String.mk (List.replicate 128 'я')

/-- The value a date token binds: the parsed date, and no value at all when the
token does not parse. -/
def parsedDate (token : String) : Option Value :=
  match ParseMonthYear token with
  | Except.ok t => some (Value.time t)
  | Except.error _ => none

/-- The assignments of the specification's partial update, before the timestamp
touch, as (column, bound value) pairs in order: service_name iff the name is
non-empty; price iff the price is greater than 0; start_date iff the start token
is non-empty, bound to the parsed date; end_date iff the end token is non-empty,
bound to null for the literal `null` and to the parsed date otherwise. -/
def updateAssignments (req : UpdateSubscriptionRequest) : List (String × Option Value) :=
  (if req.ServiceName ≠ "" then [("service_name", some (Value.str req.ServiceName))] else []) ++
  (if req.Price > 0 then [("price", some (Value.int req.Price))] else []) ++
  (if req.StartDate ≠ "" then [("start_date", parsedDate req.StartDate)] else []) ++
  (if req.EndDate ≠ "" then
    [("end_date", if req.EndDate = "null" then some Value.null else parsedDate req.EndDate)]
   else [])

/-- The SET fragments of a list of columns, the placeholders numbered from `k`. -/
def setFragments : Nat → List String → List String
  | _, [] => []
  | k, column :: columns => (column ++ " = $" ++ toString k) :: setFragments (k + 1) columns

/-- A stored row with the identifier `sampleUUID`: Netflix, 500 a month, from
January 2024, still active. -/
def sampleRow : Subscription :=
  { ID := sampleUUID, ServiceName := "Netflix", Price := 500, UserID := sampleUUID,
    StartDate := timeDate 2024 1 1 0 0 0 0 Location.UTC, EndDate := none,
    CreatedAt := timeDate 2024 1 5 10 0 0 0 Location.UTC,
    UpdatedAt := timeDate 2024 1 5 10 0 0 0 Location.UTC }


/-- The record lies in the range of the specification: its start date is at or
after `startDate` and its end date is null or at or before `endDate`. -/
def inRange (startDate endDate : Time) (r : Subscription) : Bool :=
  timeLE startDate r.StartDate &&
  (match r.EndDate with
    | none => true
    | some e => timeLE e endDate)

/-- The record passes the owner filter: no filter, or the record's owner is the
given identifier. -/
def ownedBy (userID : Option UUID) (r : Subscription) : Bool :=
  match userID with
  | none => true
  | some u => decide (r.UserID = u)

/-- The record passes the service-name filter: no filter, or the record's name
matches the pattern `%name%` under the store's `ILIKE`. -/
def nameLike (ilike : String → String → Bool) (serviceName : Option String)
    (r : Subscription) : Bool :=
  match serviceName with
  | none => true
  | some n => ilike ("%" ++ n ++ "%") r.ServiceName

/-- The total of the claim as it is worded: the prices of the records in range,
restricted to the owner when that filter is present. -/
def rangeOwnerTotal (startDate endDate : Time) (userID : Option UUID)
    (db : List Subscription) : Int :=
  sumPrice (db.filter (fun r => inRange startDate endDate r && ownedBy userID r))

/-- The total with both optional filters applied. -/
def filteredTotal (ilike : String → String → Bool) (startDate endDate : Time)
    (userID : Option UUID) (serviceName : Option String) (db : List Subscription) : Int :=
  sumPrice (db.filter (fun r =>
    inRange startDate endDate r && ownedBy userID r && nameLike ilike serviceName r))

/-- A second stored row: 300 a month from February to March 2024. -/
def sampleRow2 : Subscription :=
  { ID := { bytes := List.replicate 16 205, size := rfl }, ServiceName := "Spotify",
    Price := 300, UserID := sampleUUID,
    StartDate := timeDate 2024 2 1 0 0 0 0 Location.UTC,
    EndDate := some (timeDate 2024 3 1 0 0 0 0 Location.UTC),
    CreatedAt := timeDate 2024 2 3 9 0 0 0 Location.UTC,
    UpdatedAt := timeDate 2024 2 3 9 0 0 0 Location.UTC }


/-- Whether the character is an ASCII decimal digit. -/
def isDigitChar (c : Char) : Bool :=
  decide (48 ≤ c.toNat ∧ c.toNat ≤ 57)

/-- The number written right after a `$`: the decimal value of the leading digits
of the text that follows it (0 when no digit follows). -/
def leadingNumber (piece : List Char) : Nat :=
  decimalValue (piece.takeWhile isDigitChar)

/-- The numbers of the placeholders `$n` of a statement text, in order of
appearance. -/
def placeholders (query : String) : List Nat :=
  ((stringsSplit '$' query.data).drop 1).map leadingNumber

/-- The sixteen lists of columns a partial update can assign, before the
timestamp touch: the sublists of service_name, price, start_date, end_date. -/
def updateColumnLists : List (List String) :=
  List.sublists ["service_name", "price", "start_date", "end_date"]

/-- The placeholders of the UPDATE statement over the given columns line up: the
k-th SET fragment holds `$k` and nothing else, the last fragment is the one of
updated_at, and the statement text holds `$1` to `$(n+1)` in order, `n`
counting the fragments with updated_at. -/
def updateLinesUp (columns : List String) : Bool :=
  let setParts := setFragments 1 (columns ++ ["updated_at"])
  decide (setParts.length = columns.length + 1) &&
  decide (setParts.map placeholders = (List.range' 1 setParts.length).map (fun k => [k])) &&
  decide (setParts.getLast? = some ("updated_at = $" ++ toString setParts.length)) &&
  decide (placeholders
      ("UPDATE subscriptions SET " ++ ", ".intercalate setParts ++ " WHERE id = $" ++
        toString (columns.length + 2)) =
    List.range' 1 (columns.length + 2))


/-! ## Lemmas on the string functions -/

theorem stringsSplit_ne_nil (sep : Char) (s : List Char) : stringsSplit sep s ≠ [] := by
  cases s with
  | nil => simp [stringsSplit]
  | cons c cs =>
    simp only [stringsSplit]
    split
    · simp
    · split <;> simp

theorem stringsSplit_length (sep : Char) (s : List Char) :
    (stringsSplit sep s).length = s.count sep + 1 := by
  induction s with
  | nil => simp [stringsSplit]
  | cons c cs ih =>
    simp only [stringsSplit]
    by_cases h : c = sep
    · subst h
      simp [ih]
    · rw [if_neg h, List.count_cons_of_ne (Ne.symm h), ← ih]
      cases hs : stringsSplit sep cs with
      | nil => exact absurd hs (stringsSplit_ne_nil sep cs)
      | cons p ps => simp

theorem stringsSplit_of_not_mem (sep : Char) (s : List Char) (h : sep ∉ s) :
    stringsSplit sep s = [s] := by
  induction s with
  | nil => simp [stringsSplit]
  | cons c cs ih =>
    have hc : c ≠ sep := fun e => h (by simp [e])
    have hcs : sep ∉ cs := fun e => h (by simp [e])
    simp [stringsSplit, hc, ih hcs]

theorem stringsSplit_append (sep : Char) (a b : List Char) (h : sep ∉ a) :
    stringsSplit sep (a ++ sep :: b) = a :: stringsSplit sep b := by
  induction a with
  | nil => simp [stringsSplit]
  | cons c cs ih =>
    have hc : c ≠ sep := fun e => h (by simp [e])
    have hcs : sep ∉ cs := fun e => h (by simp [e])
    simp [stringsSplit, hc, ih hcs]

theorem digitChar_toNat (d : Nat) (h : d < 10) : (digitChar d).toNat = 48 + d := by
  interval_cases d <;> rfl

theorem digitVal_digitChar (d : Nat) (h : d < 10) : digitVal (digitChar d) = some d := by
  simp [digitVal, digitChar_toNat d h]
  omega

theorem digitChar_ne_dash (d : Nat) (h : d < 10) : digitChar d ≠ '-' := by
  intro e
  have := congrArg Char.toNat e
  rw [digitChar_toNat d h] at this
  have h2 : ('-' : Char).toNat = 45 := rfl
  omega

theorem digitChar_ne_plus (d : Nat) (h : d < 10) : digitChar d ≠ '+' := by
  intro e
  have := congrArg Char.toNat e
  rw [digitChar_toNat d h] at this
  have h2 : ('+' : Char).toNat = 43 := rfl
  omega

theorem parseDigits_eq (ds : List Char) (n m : Nat) (h : parseDigits ds n = some m) :
    (∀ c ∈ ds, 48 ≤ c.toNat ∧ c.toNat ≤ 57) ∧
      m = ds.foldl (fun n c => n * 10 + (c.toNat - 48)) n := by
  induction ds generalizing n with
  | nil =>
    simp [parseDigits] at h
    simp [h]
  | cons c cs ih =>
    simp only [parseDigits] at h
    cases hd : digitVal c with
    | none => simp [hd] at h
    | some d =>
      simp only [hd] at h
      have hc : (48 ≤ c.toNat ∧ c.toNat ≤ 57) ∧ d = c.toNat - 48 := by
        unfold digitVal at hd
        split at hd
        · rename_i hr
          exact ⟨hr, by simpa using hd.symm⟩
        · simp at hd
      obtain ⟨h1, h2⟩ := ih _ h
      refine ⟨?_, ?_⟩
      · intro x hx
        rcases List.mem_cons.mp hx with rfl | hx
        · exact hc.1
        · exact h1 x hx
      · simp only [List.foldl_cons]
        rw [← hc.2]
        exact h2

theorem Atoi_isIntegerIn (p : List Char) (n lo hi : Int) (h : Atoi p = some n)
    (hlo : lo ≤ n) (hhi : n ≤ hi) : IsIntegerIn lo hi p := by
  cases p with
  | nil => simp [Atoi] at h
  | cons c rest =>
    by_cases hm : c = '-'
    · subst hm
      cases rest with
      | nil => simp [Atoi] at h
      | cons r rs =>
        simp only [Atoi, true_or, if_true, decide_True] at h
        cases hp : parseDigits (r :: rs) 0 with
        | none => simp [hp] at h
        | some v =>
          simp only [hp] at h
          split at h
          · simp at h
          · obtain ⟨hd, hv⟩ := parseDigits_eq _ _ _ hp
            have hn : n = -(decimalValue (r :: rs) : Int) := by
              simp only [Option.some.injEq] at h
              rw [← h, hv]
              rfl
            refine ⟨['-'], r :: rs, rfl, Or.inr (Or.inr rfl), by simp, hd, ?_, ?_⟩
            · simpa [← hn] using hlo
            · simpa [← hn] using hhi
    · by_cases hpl : c = '+'
      · subst hpl
        cases rest with
        | nil => simp [Atoi] at h
        | cons r rs =>
          simp only [Atoi, or_true, if_true] at h
          cases hp : parseDigits (r :: rs) 0 with
          | none => simp [hp] at h
          | some v =>
            simp only [hp] at h
            have hdec : decide (('+' : Char) = '-') = false := by decide
            simp only [hdec, Bool.false_eq_true, if_false] at h
            split at h
            · simp at h
            · obtain ⟨hd, hv⟩ := parseDigits_eq _ _ _ hp
              have hn : n = (decimalValue (r :: rs) : Int) := by
                simp only [Option.some.injEq] at h
                rw [← h, hv]
                rfl
              have hs : (['+'] : List Char) ≠ ['-'] := by decide
              refine ⟨['+'], r :: rs, rfl, Or.inr (Or.inl rfl), by simp, hd, ?_, ?_⟩
              · simpa [hs, ← hn] using hlo
              · simpa [hs, ← hn] using hhi
      · simp only [Atoi, hm, hpl, or_self, if_false, decide_False] at h
        cases hp : parseDigits (c :: rest) 0 with
        | none => simp [hp] at h
        | some v =>
          simp only [hp, Bool.false_eq_true, if_false] at h
          split at h
          · simp at h
          · obtain ⟨hd, hv⟩ := parseDigits_eq _ _ _ hp
            have hn : n = (decimalValue (c :: rest) : Int) := by
              simp only [Option.some.injEq] at h
              rw [← h, hv]
              rfl
            refine ⟨[], c :: rest, rfl, Or.inl rfl, by simp, hd, ?_, ?_⟩
            · simpa [← hn] using hlo
            · simpa [← hn] using hhi

theorem parseDigits_complete (ds : List Char) (n : Nat)
    (h : ∀ c ∈ ds, 48 ≤ c.toNat ∧ c.toNat ≤ 57) :
    parseDigits ds n = some (ds.foldl (fun n c => n * 10 + (c.toNat - 48)) n) := by
  induction ds generalizing n with
  | nil => simp [parseDigits]
  | cons c cs ih =>
    have hc := h c (by simp)
    have hcs : ∀ x ∈ cs, 48 ≤ x.toNat ∧ x.toNat ≤ 57 := fun x hx => h x (by simp [hx])
    simp only [parseDigits, digitVal, if_pos hc, List.foldl_cons]
    exact ih _ hcs

theorem isIntegerIn_Atoi (p : List Char) (lo hi : Int) (hlo : -(2 ^ 63) ≤ lo)
    (hhi : hi < 2 ^ 63) (h : IsIntegerIn lo hi p) :
    ∃ n, Atoi p = some n ∧ lo ≤ n ∧ n ≤ hi := by
  obtain ⟨sign, digits, hp, hsign, hne, hdig, h1, h2⟩ := h
  have hpd := parseDigits_complete digits 0 hdig
  change parseDigits digits 0 = some (decimalValue digits) at hpd
  cases digits with
  | nil => exact absurd rfl hne
  | cons r rs =>
    rcases hsign with rfl | rfl | rfl
    · have hr := hdig r (by simp)
      have hm : r ≠ '-' := by
        intro e
        rw [e] at hr
        have : ('-' : Char).toNat = 45 := rfl
        omega
      have hpl : r ≠ '+' := by
        intro e
        rw [e] at hr
        have : ('+' : Char).toNat = 43 := rfl
        omega
      have hs : ([] : List Char) ≠ ['-'] := by decide
      simp only [hs, if_false] at h1 h2
      refine ⟨(decimalValue (r :: rs) : Int), ?_, h1, h2⟩
      subst hp
      simp only [List.nil_append, Atoi, hm, hpl, or_self, if_false, decide_False, hpd,
        Bool.false_eq_true]
      rw [if_neg]
      have : ((decimalValue (r :: rs) : Nat) : Int) < 2 ^ 63 := lt_of_le_of_lt h2 hhi
      have h3 : (decimalValue (r :: rs) : Nat) < 2 ^ 63 := by exact_mod_cast this
      omega
    · have hs : (['+'] : List Char) ≠ ['-'] := by decide
      have hdec : decide (('+' : Char) = '-') = false := by decide
      simp only [hs, if_false] at h1 h2
      refine ⟨(decimalValue (r :: rs) : Int), ?_, h1, h2⟩
      subst hp
      simp only [List.singleton_append, Atoi, or_true, if_true, hpd, hdec,
        Bool.false_eq_true, if_false]
      rw [if_neg]
      have : ((decimalValue (r :: rs) : Nat) : Int) < 2 ^ 63 := lt_of_le_of_lt h2 hhi
      have h3 : (decimalValue (r :: rs) : Nat) < 2 ^ 63 := by exact_mod_cast this
      omega
    · simp only [if_true] at h1 h2
      refine ⟨-(decimalValue (r :: rs) : Int), ?_, h1, h2⟩
      subst hp
      simp only [List.singleton_append, Atoi, true_or, if_true, hpd, decide_True]
      rw [if_neg]
      have : -(2 ^ 63 : Int) ≤ -((decimalValue (r :: rs) : Nat) : Int) := le_trans hlo h1
      have h3 : ((decimalValue (r :: rs) : Nat) : Int) ≤ 2 ^ 63 := by omega
      have h4 : (decimalValue (r :: rs) : Nat) ≤ 2 ^ 63 := by exact_mod_cast h3
      omega

/-- In the ranges the parser uses, the specification's "integer in `[lo, hi]`" is
exactly what `strconv.Atoi` accepts with a value in the range. -/
theorem isIntegerIn_iff_Atoi (p : List Char) (lo hi : Int) (hlo : -(2 ^ 63) ≤ lo)
    (hhi : hi < 2 ^ 63) :
    IsIntegerIn lo hi p ↔ ∃ n, Atoi p = some n ∧ lo ≤ n ∧ n ≤ hi :=
  ⟨isIntegerIn_Atoi p lo hi hlo hhi, fun ⟨n, h, h1, h2⟩ => Atoi_isIntegerIn p n lo hi h h1 h2⟩

theorem not_isIntegerIn_of_atoiIn (p : List Char) (lo hi : Int) (hlo : -(2 ^ 63) ≤ lo)
    (hhi : hi < 2 ^ 63) (h : atoiIn lo hi p = false) : ¬ IsIntegerIn lo hi p := by
  intro hi'
  obtain ⟨n, hn, h1, h2⟩ := isIntegerIn_Atoi p lo hi hlo hhi hi'
  simp [atoiIn, hn, h1, h2] at h

theorem Atoi_two_digits (a b : Nat) (ha : a < 10) (hb : b < 10) :
    Atoi [digitChar a, digitChar b] = some ((a * 10 + b : Nat) : Int) := by
  have h1 := digitChar_ne_dash a ha
  have h2 := digitChar_ne_plus a ha
  simp only [Atoi, h1, h2, or_self, if_false, decide_False, parseDigits,
    digitVal_digitChar a ha, digitVal_digitChar b hb, Bool.false_eq_true]
  rw [if_neg (by omega)]
  simp

theorem Atoi_four_digits (a b c d : Nat) (ha : a < 10) (hb : b < 10) (hc : c < 10)
    (hd : d < 10) :
    Atoi [digitChar a, digitChar b, digitChar c, digitChar d] =
      some ((a * 1000 + b * 100 + c * 10 + d : Nat) : Int) := by
  have h1 := digitChar_ne_dash a ha
  have h2 := digitChar_ne_plus a ha
  simp only [Atoi, h1, h2, or_self, if_false, decide_False, parseDigits,
    digitVal_digitChar a ha, digitVal_digitChar b hb, digitVal_digitChar c hc,
    digitVal_digitChar d hd, Bool.false_eq_true]
  rw [if_neg (by omega)]
  congr 2
  omega

theorem monthYearToken_split (m y : Nat) (hm : m ≤ 99) (hy : y ≤ 9999) :
    stringsSplit '-' (monthYearToken m y).data =
      [[digitChar (m / 10), digitChar (m % 10)],
       [digitChar (y / 1000), digitChar (y / 100 % 10), digitChar (y / 10 % 10),
        digitChar (y % 10)]] := by
  have e : (monthYearToken m y).data =
      [digitChar (m / 10), digitChar (m % 10)] ++ '-' ::
        [digitChar (y / 1000), digitChar (y / 100 % 10), digitChar (y / 10 % 10),
          digitChar (y % 10)] := rfl
  have n1 := digitChar_ne_dash (m / 10) (by omega)
  have n2 := digitChar_ne_dash (m % 10) (by omega)
  have n3 := digitChar_ne_dash (y / 1000) (by omega)
  have n4 := digitChar_ne_dash (y / 100 % 10) (by omega)
  have n5 := digitChar_ne_dash (y / 10 % 10) (by omega)
  have n6 := digitChar_ne_dash (y % 10) (by omega)
  rw [e, stringsSplit_append, stringsSplit_of_not_mem]
  · simp [Ne.symm n3, Ne.symm n4, Ne.symm n5, Ne.symm n6]
  · simp [Ne.symm n1, Ne.symm n2]

/-- What a successful `ParseMonthYear` says about its token. -/
theorem parseMonthYearChars_ok (s : List Char) (t : Time)
    (h : parseMonthYearChars s = Except.ok t) :
    ∃ p0 p1 m y, stringsSplit '-' s = [p0, p1] ∧ Atoi p0 = some m ∧ 1 ≤ m ∧ m ≤ 12 ∧
      Atoi p1 = some y ∧ 1900 ≤ y ∧ y ≤ 2100 ∧
      t = { year := y, month := m, day := 1, hour := 0, minute := 0, second := 0,
            nanosecond := 0, loc := Location.UTC } := by
  unfold parseMonthYearChars at h
  split at h
  · rename_i p0 p1 hs
    cases h0 : Atoi p0 with
    | none => simp [h0] at h
    | some m =>
      simp only [h0] at h
      by_cases hm : m < 1 ∨ m > 12
      · simp [if_pos hm] at h
      · simp only [if_neg hm] at h
        cases h1 : Atoi p1 with
        | none => simp [h1] at h
        | some y =>
          simp only [h1] at h
          by_cases hy : y < 1900 ∨ y > 2100
          · simp [if_pos hy] at h
          · simp only [if_neg hy, Except.ok.injEq] at h
            exact ⟨p0, p1, m, y, hs, h0, by omega, by omega, h1, by omega, by omega,
              h.symm⟩
  · simp at h

theorem except_ok_or_error {ε α : Type} (r : Except ε α) :
    (∃ a, r = Except.ok a) ∨ ∃ e, r = Except.error e := by
  cases r with
  | ok a => exact Or.inl ⟨a, rfl⟩
  | error e => exact Or.inr ⟨e, rfl⟩

theorem parseOk_eq_true (s : String) : parseOk s = true ↔ ∃ t, ParseMonthYear s = Except.ok t := by
  unfold parseOk
  cases ParseMonthYear s <;> simp

theorem parseOk_eq_false (s : String) :
    parseOk s = false ↔ ∃ e, ParseMonthYear s = Except.error e := by
  unfold parseOk
  cases ParseMonthYear s <;> simp

/-! ## The date parser -/

/-- C1: for every month `m` in `[1,12]` and year `y` in `[1900,2100]`,
`ParseMonthYear` on the token `MM-YYYY` (two zero-padded month digits, one dash,
four year digits) returns no error and the date `y-m-01 00:00:00` in UTC. -/
theorem ParseMonthYear_valid_token (m y : Nat) (hm1 : 1 ≤ m) (hm2 : m ≤ 12)
    (hy1 : 1900 ≤ y) (hy2 : y ≤ 2100) :
    ParseMonthYear (monthYearToken m y) =
      Except.ok { year := y, month := m, day := 1, hour := 0, minute := 0, second := 0,
                  nanosecond := 0, loc := Location.UTC } := by
  unfold ParseMonthYear parseMonthYearChars
  rw [monthYearToken_split m y (by omega) (by omega)]
  simp only [Atoi_two_digits (m / 10) (m % 10) (by omega) (by omega),
    Atoi_four_digits (y / 1000) (y / 100 % 10) (y / 10 % 10) (y % 10) (by omega) (by omega)
      (by omega) (by omega)]
  have em : m / 10 * 10 + m % 10 = m := by omega
  have ey : y / 1000 * 1000 + y / 100 % 10 * 100 + y / 10 % 10 * 10 + y % 10 = y := by omega
  rw [em, ey]
  rw [if_neg (by omega), if_neg (by omega)]
  rfl

/-- Witness for C1: March 2024. -/
theorem ParseMonthYear_valid_token_witness :
    ParseMonthYear "03-2024" =
      Except.ok { year := 2024, month := 3, day := 1, hour := 0, minute := 0, second := 0,
                  nanosecond := 0, loc := Location.UTC } :=
  ParseMonthYear_valid_token 3 2024 (by decide) (by decide) (by decide) (by decide)

/-- C2: `ParseMonthYear` returns an error for every token that does not split on
the dash into exactly two parts (no dash, or two or more dashes, which covers
every other separator), for every token whose first part is not an integer in
`[1,12]`, and for every token whose second part is not an integer in
`[1900,2100]`. -/
theorem ParseMonthYear_rejects (s : String)
    (h : s.data.count '-' ≠ 1 ∨ ¬ IsIntegerIn 1 12 (tokenPart s 0) ∨
      ¬ IsIntegerIn 1900 2100 (tokenPart s 1)) :
    ∃ e, ParseMonthYear s = Except.error e := by
  rcases except_ok_or_error (ParseMonthYear s) with ⟨t, ht⟩ | he
  · exfalso
    obtain ⟨p0, p1, m, y, hs, h0, hm1, hm2, h1, hy1, hy2, -⟩ := parseMonthYearChars_ok _ t ht
    have hlen := stringsSplit_length '-' s.data
    rw [hs] at hlen
    rcases h with h | h | h
    · apply h
      simp at hlen
      omega
    · apply h
      have : tokenPart s 0 = p0 := by simp [tokenPart, hs]
      rw [this]
      exact Atoi_isIntegerIn p0 m 1 12 h0 hm1 hm2
    · apply h
      have : tokenPart s 1 = p1 := by simp [tokenPart, hs]
      rw [this]
      exact Atoi_isIntegerIn p1 y 1900 2100 h1 hy1 hy2
  · exact he

/-- Witness for C2: month 0, month 13, years 1899 and 2101, a two-digit year, no
dash, two dashes, and the separators `/` and `.` are all rejected. -/
theorem ParseMonthYear_rejects_witness :
    (¬ IsIntegerIn 1 12 (tokenPart "00-2024" 0) ∧ ∃ e, ParseMonthYear "00-2024" = Except.error e) ∧
    (∃ e, ParseMonthYear "13-2024" = Except.error e) ∧
    (∃ e, ParseMonthYear "01-1899" = Except.error e) ∧
    (∃ e, ParseMonthYear "01-2101" = Except.error e) ∧
    (∃ e, ParseMonthYear "01-24" = Except.error e) ∧
    (∃ e, ParseMonthYear "012024" = Except.error e) ∧
    (∃ e, ParseMonthYear "01-01-2024" = Except.error e) ∧
    (∃ e, ParseMonthYear "01/2024" = Except.error e) ∧
    (∃ e, ParseMonthYear "01.2024" = Except.error e) :=
  ⟨⟨not_isIntegerIn_of_atoiIn _ 1 12 (by decide) (by decide) (by decide),
    ParseMonthYear_rejects "00-2024"
      (Or.inr (Or.inl (not_isIntegerIn_of_atoiIn _ 1 12 (by decide) (by decide) (by decide))))⟩,
   ParseMonthYear_rejects "13-2024"
      (Or.inr (Or.inl (not_isIntegerIn_of_atoiIn _ 1 12 (by decide) (by decide) (by decide)))),
   ParseMonthYear_rejects "01-1899"
      (Or.inr (Or.inr (not_isIntegerIn_of_atoiIn _ 1900 2100 (by decide) (by decide) (by decide)))),
   ParseMonthYear_rejects "01-2101"
      (Or.inr (Or.inr (not_isIntegerIn_of_atoiIn _ 1900 2100 (by decide) (by decide) (by decide)))),
   ParseMonthYear_rejects "01-24"
      (Or.inr (Or.inr (not_isIntegerIn_of_atoiIn _ 1900 2100 (by decide) (by decide) (by decide)))),
   ParseMonthYear_rejects "012024" (Or.inl (by decide)),
   ParseMonthYear_rejects "01-01-2024" (Or.inl (by decide)),
   ParseMonthYear_rejects "01/2024" (Or.inl (by decide)),
   ParseMonthYear_rejects "01.2024" (Or.inl (by decide))⟩

/-! ## The field whitelist validator -/

theorem returnErrors_eq_none (es : ValidationErrors) : returnErrors es = none ↔ es = [] := by
  cases es <;> simp [returnErrors]

theorem errorsOf_returnErrors (es : ValidationErrors) : errorsOf (returnErrors es) = es := by
  cases es <;> simp [returnErrors, errorsOf]

theorem returnErrors_nonempty (es es' : ValidationErrors) (h : returnErrors es = some es') :
    es' = es ∧ es' ≠ [] := by
  cases es with
  | nil => simp [returnErrors] at h
  | cons e t =>
    simp [returnErrors] at h
    simp [← h]

theorem allowedFieldsMap_apply (allowedFields : List String) (m : BoolMap) (k : String) :
    (allowedFields.foldl (fun m field => BoolMap.set m field true) m) k =
      (m k || decide (k ∈ allowedFields)) := by
  induction allowedFields generalizing m with
  | nil => simp
  | cons f fs ih =>
    simp only [List.foldl_cons, ih, BoolMap.set, List.mem_cons]
    by_cases h : k = f
    · simp [h]
    · simp [h]

theorem fieldErrors_fold {α : Type} (allowed : BoolMap) (data : List (String × α))
    (acc : ValidationErrors) :
    data.foldl
      (fun errors entry =>
        if !allowed entry.1 then
          errors ++ [({ Field := entry.1, Message := "поле не разрешено" } : ValidationError)]
        else errors)
      acc =
    acc ++ ((data.map Prod.fst).filter (fun k => !allowed k)).map
      (fun k => ({ Field := k, Message := "поле не разрешено" } : ValidationError)) := by
  induction data generalizing acc with
  | nil => simp
  | cons e t ih =>
    simp only [List.foldl_cons, ih, List.map_cons, List.filter_cons]
    by_cases h : allowed e.1 = true
    · simp [h]
    · simp [h]

/-- The errors of `ValidateJSONFields`, in closed form: one per key outside the
allowed list, in iteration order. -/
theorem ValidateJSONFields_errors {α : Type} (data : List (String × α))
    (allowedFields : List String) :
    errorsOf (ValidateJSONFields data allowedFields) =
      ((data.map Prod.fst).filter (fun k => decide (k ∉ allowedFields))).map
        (fun k => ({ Field := k, Message := "поле не разрешено" } : ValidationError)) := by
  unfold ValidateJSONFields
  simp only [errorsOf_returnErrors, fieldErrors_fold, List.nil_append]
  congr 1
  apply List.filter_congr
  intro k _
  simp [allowedFieldsMap_apply]

theorem ValidateJSONFields_eq_none {α : Type} (data : List (String × α))
    (allowedFields : List String) :
    ValidateJSONFields data allowedFields = none ↔ ∀ k ∈ data.map Prod.fst, k ∈ allowedFields := by
  have h := ValidateJSONFields_errors data allowedFields
  have h2 : ValidateJSONFields data allowedFields = none ↔
      errorsOf (ValidateJSONFields data allowedFields) = [] := by
    unfold ValidateJSONFields
    simp only [errorsOf_returnErrors, returnErrors_eq_none]
  rw [h2, h]
  simp [List.filter_eq_nil_iff]

theorem ValidateJSONFields_some {α : Type} (data : List (String × α))
    (allowedFields : List String) (es : ValidationErrors)
    (h : ValidateJSONFields data allowedFields = some es) : es ≠ [] := by
  unfold ValidateJSONFields at h
  exact (returnErrors_nonempty _ _ h).2

theorem ValidateJSONFields_fields {α : Type} (data : List (String × α))
    (allowedFields : List String) :
    (errorsOf (ValidateJSONFields data allowedFields)).map ValidationError.Field =
      (data.map Prod.fst).filter (fun k => decide (k ∉ allowedFields)) := by
  rw [ValidateJSONFields_errors, List.map_map]
  exact List.map_id _

/-- C3: with each operation's allowed list, `ValidateJSONFields` returns nil if
and only if every key of the payload is in the set the specification fixes for
that operation, and otherwise a non-empty `ValidationErrors`; the empty payload
is accepted and `user_id` is rejected on update. -/
theorem ValidateJSONFields_whitelists {α : Type} (data : List (String × α)) :
    (ValidateJSONFields data GetAllowedFieldsForCreate = none ↔
      ∀ k ∈ data.map Prod.fst, k = "service_name" ∨ k = "price" ∨ k = "user_id" ∨
        k = "start_date" ∨ k = "end_date") ∧
    (ValidateJSONFields data GetAllowedFieldsForUpdate = none ↔
      ∀ k ∈ data.map Prod.fst, k = "service_name" ∨ k = "price" ∨ k = "start_date" ∨
        k = "end_date") ∧
    (ValidateJSONFields data GetAllowedFieldsForAggregation = none ↔
      ∀ k ∈ data.map Prod.fst, k = "user_id" ∨ k = "service_name" ∨ k = "start_date" ∨
        k = "end_date") ∧
    (∀ allowed es, ValidateJSONFields data allowed = some es → es ≠ []) ∧
    (ValidateJSONFields ([] : List (String × α)) GetAllowedFieldsForCreate = none ∧
      ValidateJSONFields ([] : List (String × α)) GetAllowedFieldsForUpdate = none ∧
      ValidateJSONFields ([] : List (String × α)) GetAllowedFieldsForAggregation = none) ∧
    ("user_id" ∈ data.map Prod.fst →
      ValidateJSONFields data GetAllowedFieldsForUpdate ≠ none ∧
      ({ Field := "user_id", Message := "поле не разрешено" } : ValidationError) ∈
        errorsOf (ValidateJSONFields data GetAllowedFieldsForUpdate)) := by
  refine ⟨?_, ?_, ?_, ?_, ⟨?_, ?_, ?_⟩, ?_⟩
  · rw [ValidateJSONFields_eq_none]
    simp [GetAllowedFieldsForCreate]
  · rw [ValidateJSONFields_eq_none]
    simp [GetAllowedFieldsForUpdate]
  · rw [ValidateJSONFields_eq_none]
    simp [GetAllowedFieldsForAggregation]
  · intro allowed es h
    exact ValidateJSONFields_some data allowed es h
  · rw [ValidateJSONFields_eq_none]
    simp
  · rw [ValidateJSONFields_eq_none]
    simp
  · rw [ValidateJSONFields_eq_none]
    simp
  · intro h
    have hn : "user_id" ∉ GetAllowedFieldsForUpdate := by decide
    refine ⟨?_, ?_⟩
    · rw [Ne, ValidateJSONFields_eq_none]
      intro hall
      exact hn (hall _ h)
    · rw [ValidateJSONFields_errors]
      apply List.mem_map.mpr
      exact ⟨"user_id", List.mem_filter.mpr ⟨h, by simpa using hn⟩, rfl⟩

/-- Witness for C3: an update payload with the keys `user_id` and `price`. -/
theorem ValidateJSONFields_whitelists_witness :
    "user_id" ∈ ([("user_id", 1), ("price", 2)] : List (String × Nat)).map Prod.fst ∧
    ValidateJSONFields ([("user_id", 1), ("price", 2)] : List (String × Nat))
      GetAllowedFieldsForUpdate ≠ none ∧
    ValidateJSONFields ([("user_id", 1), ("price", 2)] : List (String × Nat))
      GetAllowedFieldsForCreate = none :=
  ⟨by decide,
   ((ValidateJSONFields_whitelists
      ([("user_id", 1), ("price", 2)] : List (String × Nat))).2.2.2.2.2 (by decide)).1,
   (ValidateJSONFields_whitelists
      ([("user_id", 1), ("price", 2)] : List (String × Nat))).1.mpr (by decide)⟩

/-- C4: the errors of `ValidateJSONFields` correspond one to one to the payload
keys outside the allowed list: the fields of the errors are exactly those keys
(in iteration order), each such key is the field of exactly one error, every
error carries the fixed message and a disallowed key of the payload, the number
of errors is the number of disallowed keys, and another iteration order of the
same payload gives the same errors up to order. -/
theorem ValidateJSONFields_one_error_per_key {α : Type} (data : List (String × α))
    (allowedFields : List String) (hkeys : (data.map Prod.fst).Nodup) :
    (errorsOf (ValidateJSONFields data allowedFields)).map ValidationError.Field =
      (data.map Prod.fst).filter (fun k => decide (k ∉ allowedFields)) ∧
    (∀ k, k ∈ data.map Prod.fst → k ∉ allowedFields →
      List.countP (fun e => decide (e.Field = k))
        (errorsOf (ValidateJSONFields data allowedFields)) = 1 ∧
      ({ Field := k, Message := "поле не разрешено" } : ValidationError) ∈
        errorsOf (ValidateJSONFields data allowedFields)) ∧
    (∀ e ∈ errorsOf (ValidateJSONFields data allowedFields),
      e.Message = "поле не разрешено" ∧ e.Field ∈ data.map Prod.fst ∧
        e.Field ∉ allowedFields) ∧
    (errorsOf (ValidateJSONFields data allowedFields)).length =
      ((data.map Prod.fst).filter (fun k => decide (k ∉ allowedFields))).length ∧
    (∀ data' : List (String × α), data.Perm data' →
      (errorsOf (ValidateJSONFields data allowedFields)).Perm
        (errorsOf (ValidateJSONFields data' allowedFields))) := by
  refine ⟨ValidateJSONFields_fields data allowedFields, ?_, ?_, ?_, ?_⟩
  · intro k hk hna
    refine ⟨?_, ?_⟩
    · have hc : List.countP (fun e => decide (e.Field = k))
          (errorsOf (ValidateJSONFields data allowedFields)) =
          List.count k ((errorsOf (ValidateJSONFields data allowedFields)).map
            ValidationError.Field) := by
        rw [List.count, List.countP_map]
        apply List.countP_congr
        intro e _
        simp
      rw [hc, ValidateJSONFields_fields]
      have hmem : k ∈ (data.map Prod.fst).filter (fun k => decide (k ∉ allowedFields)) :=
        List.mem_filter.mpr ⟨hk, by simpa using hna⟩
      exact List.count_eq_one_of_mem (hkeys.filter _) hmem
    · rw [ValidateJSONFields_errors]
      exact List.mem_map.mpr ⟨k, List.mem_filter.mpr ⟨hk, by simpa using hna⟩, rfl⟩
  · intro e he
    rw [ValidateJSONFields_errors] at he
    obtain ⟨k, hk, rfl⟩ := List.mem_map.mp he
    have := List.mem_filter.mp hk
    exact ⟨rfl, this.1, by simpa using this.2⟩
  · rw [← ValidateJSONFields_fields, List.length_map]
  · intro data' hp
    rw [ValidateJSONFields_errors, ValidateJSONFields_errors]
    exact ((hp.map Prod.fst).filter _).map _

/-- Witness for C4: a payload with two disallowed keys and one allowed key. -/
theorem ValidateJSONFields_one_error_per_key_witness :
    (([("foo", 1), ("price", 2), ("bar", 3)] : List (String × Nat)).map Prod.fst).Nodup ∧
    (errorsOf (ValidateJSONFields ([("foo", 1), ("price", 2), ("bar", 3)] : List (String × Nat))
      GetAllowedFieldsForUpdate)).length = 2 :=
  ⟨by decide,
   (ValidateJSONFields_one_error_per_key
      ([("foo", 1), ("price", 2), ("bar", 3)] : List (String × Nat))
      GetAllowedFieldsForUpdate (by decide)).2.2.2.1.trans (by decide)⟩

/-! ## The request validators -/

theorem utf8Size_ascii (c : Char) (h : c.toNat < 128) : c.utf8Size = 1 := by
  have h1 : c.val ≤ UInt32.ofNatCore 0x7F (by decide) := by
    rw [UInt32.le_def]
    have : c.val.val.val < 128 := h
    show c.val.val.val ≤ 127
    omega
  unfold Char.utf8Size
  exact if_pos h1

theorem utf8Len_ascii (cs : List Char) (h : ∀ c ∈ cs, c.toNat < 128) :
    String.utf8Len cs = cs.length := by
  induction cs with
  | nil => rfl
  | cons c t ih =>
    rw [String.utf8Len_cons, ih (fun x hx => h x (by simp [hx])),
      utf8Size_ascii c (h c (by simp)), List.length_cons]

theorem goLen_ascii (s : String) (h : IsASCII s) : goLen s = s.length := by
  cases s with
  | mk cs => exact utf8Len_ascii cs h

theorem append_if (c : Prop) [Decidable c] (acc x : ValidationErrors) :
    (if c then acc ++ x else acc) = acc ++ (if c then x else []) := by
  split <;> simp

theorem append_if_not (c : Prop) [Decidable c] (acc y : ValidationErrors) :
    (if c then acc else acc ++ y) = acc ++ (if c then [] else y) := by
  split <;> simp

theorem if_append_append (c : Prop) [Decidable c] (acc x y : ValidationErrors) :
    (if c then acc ++ x else acc ++ y) = acc ++ (if c then x else y) := by
  split <;> rfl

/-- The errors of `ValidateCreateSubscription`, field by field. -/
theorem ValidateCreateSubscription_errors (uuidParse : String → Option UUID)
    (req : CreateSubscriptionRequest) :
    errorsOf (ValidateCreateSubscription uuidParse req) =
      (if req.ServiceName = "" then
          [{ Field := "service_name", Message := "название сервиса обязательно" }]
        else if goLen req.ServiceName > 255 then
          [{ Field := "service_name",
             Message := "название сервиса не должно превышать 255 символов" }]
        else []) ++
      (if req.Price < 0 then
          [{ Field := "price", Message := "стоимость не может быть отрицательной" }]
        else []) ++
      (if req.UserID = "" then
          [{ Field := "user_id", Message := "ID пользователя обязателен" }]
        else if (uuidParse req.UserID).isNone then
          [{ Field := "user_id", Message := "ID пользователя должен быть в формате UUID" }]
        else []) ++
      (if req.StartDate = "" then
          [{ Field := "start_date", Message := "дата начала обязательна" }]
        else if (!parseOk req.StartDate) = true then
          [{ Field := "start_date", Message := "дата начала должна быть в формате MM-YYYY" }]
        else []) ++
      (if req.EndDate ≠ "" ∧ (!parseOk req.EndDate) = true then
          [{ Field := "end_date", Message := "дата окончания должна быть в формате MM-YYYY" }]
        else []) := by
  unfold ValidateCreateSubscription
  simp only [errorsOf_returnErrors, append_if, if_append_append, List.nil_append]
  by_cases h : req.EndDate = ""
  · simp only [h, ne_eq, not_true_eq_false, false_and, if_false, List.append_nil]
  · simp only [h, ne_eq, not_false_eq_true, true_and, if_true]

theorem ValidateCreateSubscription_eq_none (uuidParse : String → Option UUID)
    (req : CreateSubscriptionRequest) :
    ValidateCreateSubscription uuidParse req = none ↔
      errorsOf (ValidateCreateSubscription uuidParse req) = [] := by
  unfold ValidateCreateSubscription
  simp only [errorsOf_returnErrors, returnErrors_eq_none]

theorem ValidateCreateSubscription_fields (uuidParse : String → Option UUID)
    (req : CreateSubscriptionRequest) (h : IsASCII req.ServiceName) :
    (errorsOf (ValidateCreateSubscription uuidParse req)).map ValidationError.Field =
      createFailingRules uuidParse req := by
  rw [ValidateCreateSubscription_errors]
  simp only [List.map_append, createFailingRules, goLen_ascii _ h]
  congr 1
  congr 1
  congr 1
  congr 1
  · by_cases h1 : req.ServiceName = ""
    · simp [h1]
    · by_cases h2 : req.ServiceName.length > 255
      · have : ¬ req.ServiceName.length ≤ 255 := by omega
        simp [h1, h2, this]
      · have : req.ServiceName.length ≤ 255 := by omega
        simp [h1, h2, this]
  · by_cases h1 : req.Price < 0
    · have : ¬ 0 ≤ req.Price := by omega
      simp [h1, this]
    · have : 0 ≤ req.Price := by omega
      simp [h1, this]
  · by_cases h1 : req.UserID = ""
    · simp [h1]
    · cases h2 : uuidParse req.UserID <;> simp [h1]
  · by_cases h1 : req.StartDate = ""
    · simp [h1]
    · cases h2 : parseOk req.StartDate <;> simp [h1]
  · by_cases h1 : req.EndDate = ""
    · simp [h1]
    · cases h2 : parseOk req.EndDate <;> simp [h1]

/-- C5: for a request with an ASCII service name, the fields of the errors of
`ValidateCreateSubscription` are exactly the failing rules, one error each, in
the order service_name, price, user_id, start_date, end_date; the result is nil
exactly when no rule fails; the Netflix request with a valid identifier
succeeds, and an empty `user_id` always yields an error tagged `user_id`. -/
theorem ValidateCreateSubscription_rules (uuidParse : String → Option UUID) :
    (∀ req : CreateSubscriptionRequest, IsASCII req.ServiceName →
      (errorsOf (ValidateCreateSubscription uuidParse req)).map ValidationError.Field =
        createFailingRules uuidParse req ∧
      (ValidateCreateSubscription uuidParse req = none ↔
        createFailingRules uuidParse req = [])) ∧
    (∀ u : String, u ≠ "" → (uuidParse u).isSome = true →
      ValidateCreateSubscription uuidParse
        { ServiceName := "Netflix", Price := 999, UserID := u, StartDate := "01-2024",
          EndDate := "" } = none) ∧
    (∀ req : CreateSubscriptionRequest, req.UserID = "" →
      ∃ e ∈ errorsOf (ValidateCreateSubscription uuidParse req), e.Field = "user_id") := by
  refine ⟨?_, ?_, ?_⟩
  · intro req h
    refine ⟨ValidateCreateSubscription_fields uuidParse req h, ?_⟩
    rw [ValidateCreateSubscription_eq_none, ← ValidateCreateSubscription_fields uuidParse req h,
      List.map_eq_nil_iff]
  · intro u hu hp
    rw [ValidateCreateSubscription_eq_none, ValidateCreateSubscription_errors]
    have h1 : goLen "Netflix" = 7 := by decide
    have h2 : parseOk "01-2024" = true := by decide
    have h3 : ("Netflix" : String) ≠ "" := by decide
    have h4 : ("01-2024" : String) ≠ "" := by decide
    have h5 : (uuidParse u).isNone = false := by
      cases hx : uuidParse u <;> simp [hx] at hp ⊢
    simp [h1, h2, h3, h4, h5, hu]
  · intro req h
    refine ⟨{ Field := "user_id", Message := "ID пользователя обязателен" }, ?_, rfl⟩
    rw [ValidateCreateSubscription_errors]
    simp [h]

/-- Witness for C5: a request with a good name that breaks the other four
rules, and the Netflix request. -/
theorem ValidateCreateSubscription_rules_witness :
    IsASCII "Netflix" ∧
    (errorsOf (ValidateCreateSubscription
      (uuidParseOnly "abababab-abab-abab-abab-abababababab" sampleUUID)
      { ServiceName := "Netflix", Price := -1, UserID := "", StartDate := "1-24",
        EndDate := "2024" })).map ValidationError.Field =
      ["price", "user_id", "start_date", "end_date"] ∧
    ValidateCreateSubscription
      (uuidParseOnly "abababab-abab-abab-abab-abababababab" sampleUUID)
      { ServiceName := "Netflix", Price := 999,
        UserID := "abababab-abab-abab-abab-abababababab", StartDate := "01-2024",
        EndDate := "" } = none :=
  ⟨by unfold IsASCII; decide,
   ((ValidateCreateSubscription_rules
      (uuidParseOnly "abababab-abab-abab-abab-abababababab" sampleUUID)).1
      { ServiceName := "Netflix", Price := -1, UserID := "", StartDate := "1-24",
        EndDate := "2024" }
      (by unfold IsASCII; decide)).1.trans (by decide),
   (ValidateCreateSubscription_rules
      (uuidParseOnly "abababab-abab-abab-abab-abababababab" sampleUUID)).2.1
      "abababab-abab-abab-abab-abababababab" (by decide) (by decide)⟩

/-- The errors of `ValidateUpdateSubscription`, field by field. -/
theorem ValidateUpdateSubscription_errors (req : UpdateSubscriptionRequest) :
    errorsOf (ValidateUpdateSubscription req) =
      (if req.ServiceName ≠ "" ∧ goLen req.ServiceName > 255 then
          [{ Field := "service_name",
             Message := "название сервиса не должно превышать 255 символов" }]
        else []) ++
      (if req.Price < 0 then
          [{ Field := "price", Message := "стоимость не может быть отрицательной" }]
        else []) ++
      (if req.StartDate ≠ "" ∧ (!parseOk req.StartDate) = true then
          [{ Field := "start_date", Message := "дата начала должна быть в формате MM-YYYY" }]
        else []) ++
      (if req.EndDate ≠ "" ∧ req.EndDate ≠ "null" ∧ (!parseOk req.EndDate) = true then
          [{ Field := "end_date", Message := "дата окончания должна быть в формате MM-YYYY" }]
        else []) := by
  unfold ValidateUpdateSubscription
  simp only [errorsOf_returnErrors, append_if, append_if_not, if_append_append,
    List.nil_append]
  congr 1
  · congr 1
    by_cases h : req.StartDate = "" <;> simp [h]
  · by_cases h : req.EndDate = ""
    · simp [h]
    · by_cases h2 : req.EndDate = "null"
      · simp [h2]
      · simp [h, h2]

theorem ValidateUpdateSubscription_eq_none (req : UpdateSubscriptionRequest) :
    ValidateUpdateSubscription req = none ↔ errorsOf (ValidateUpdateSubscription req) = [] := by
  unfold ValidateUpdateSubscription
  simp only [errorsOf_returnErrors, returnErrors_eq_none]

theorem uuidString_ne_empty (u : UUID) : uuidString u ≠ "" := by
  intro h
  have := congrArg String.data h
  simp [uuidString] at this

/-- The errors of `ValidateAggregationRequest`, field by field. -/
theorem ValidateAggregationRequest_errors (req : AggregationRequest) :
    errorsOf (ValidateAggregationRequest req) =
      (if req.StartDate = "" then
          [{ Field := "start_date", Message := "дата начала обязательна" }]
        else if (!parseOk req.StartDate) = true then
          [{ Field := "start_date", Message := "дата начала должна быть в формате MM-YYYY" }]
        else []) ++
      (if req.EndDate = "" then
          [{ Field := "end_date", Message := "дата окончания обязательна" }]
        else if (!parseOk req.EndDate) = true then
          [{ Field := "end_date", Message := "дата окончания должна быть в формате MM-YYYY" }]
        else []) ++
      (match req.UserID with
        | some userID =>
          if uuidString userID = "" then
            [{ Field := "user_id", Message := "ID пользователя не может быть пустым" }]
          else []
        | none => []) ++
      (match req.ServiceName with
        | some serviceName =>
          if goLen serviceName > 255 then
            [{ Field := "service_name",
               Message := "название сервиса не должно превышать 255 символов" }]
          else []
        | none => []) := by
  unfold ValidateAggregationRequest
  simp only [errorsOf_returnErrors, append_if, if_append_append, List.nil_append]
  cases req.UserID <;> cases req.ServiceName <;> simp [append_if]

theorem ValidateAggregationRequest_eq_none (req : AggregationRequest) :
    ValidateAggregationRequest req = none ↔ errorsOf (ValidateAggregationRequest req) = [] := by
  unfold ValidateAggregationRequest
  simp only [errorsOf_returnErrors, returnErrors_eq_none]

/-- C7: for a request with an ASCII service name, `ValidateUpdateSubscription`
returns nil if and only if the name is at most 255 long, the price is at least
0, the start token is empty or parses, and the end token is empty, the literal
`null`, or parses.  The all-empty request and the request with only
`end_date = "null"` pass, and `null` as start token is rejected. -/
theorem ValidateUpdateSubscription_nil_iff :
    (∀ req : UpdateSubscriptionRequest, IsASCII req.ServiceName →
      (ValidateUpdateSubscription req = none ↔
        req.ServiceName.length ≤ 255 ∧ 0 ≤ req.Price ∧
        (req.StartDate = "" ∨ parseOk req.StartDate = true) ∧
        (req.EndDate = "" ∨ req.EndDate = "null" ∨ parseOk req.EndDate = true))) ∧
    ValidateUpdateSubscription
      { ServiceName := "", Price := 0, StartDate := "", EndDate := "" } = none ∧
    ValidateUpdateSubscription
      { ServiceName := "", Price := 0, StartDate := "", EndDate := "null" } = none ∧
    (∀ req : UpdateSubscriptionRequest, req.StartDate = "null" →
      ValidateUpdateSubscription req ≠ none ∧
      ∃ e ∈ errorsOf (ValidateUpdateSubscription req), e.Field = "start_date") := by
  refine ⟨?_, by decide, by decide, ?_⟩
  · intro req h
    rw [ValidateUpdateSubscription_eq_none, ValidateUpdateSubscription_errors, goLen_ascii _ h]
    simp only [List.append_eq_nil, ite_eq_right_iff, List.cons_ne_nil, imp_false]
    have hlen : req.ServiceName = "" → req.ServiceName.length ≤ 255 := by
      intro e
      rw [e]
      decide
    constructor
    · rintro ⟨⟨⟨h1, h2⟩, h3⟩, h4⟩
      refine ⟨?_, by omega, ?_, ?_⟩
      · by_cases e : req.ServiceName = ""
        · exact hlen e
        · have : ¬ req.ServiceName.length > 255 := fun h' => h1 ⟨e, h'⟩
          omega
      · by_cases e : req.StartDate = ""
        · exact Or.inl e
        · right
          cases hp : parseOk req.StartDate
          · exact absurd ⟨e, by simp [hp]⟩ h3
          · rfl
      · by_cases e : req.EndDate = ""
        · exact Or.inl e
        · by_cases e2 : req.EndDate = "null"
          · exact Or.inr (Or.inl e2)
          · right
            right
            cases hp : parseOk req.EndDate
            · exact absurd ⟨e, e2, by simp [hp]⟩ h4
            · rfl
    · rintro ⟨h1, h2, h3, h4⟩
      refine ⟨⟨⟨?_, by omega⟩, ?_⟩, ?_⟩
      · rintro ⟨-, h'⟩
        omega
      · rintro ⟨e, hp⟩
        rcases h3 with h3 | h3
        · exact e h3
        · simp [h3] at hp
      · rintro ⟨e, e2, hp⟩
        rcases h4 with h4 | h4 | h4
        · exact e h4
        · exact e2 h4
        · simp [h4] at hp
  · intro req h
    have hp : parseOk req.StartDate = false := by
      rw [h]
      decide
    have hne : req.StartDate ≠ "" := by
      rw [h]
      decide
    have hmem : ValidationError.mk "start_date" "дата начала должна быть в формате MM-YYYY" ∈
        errorsOf (ValidateUpdateSubscription req) := by
      rw [ValidateUpdateSubscription_errors]
      simp [hp, hne]
    refine ⟨?_, _, hmem, rfl⟩
    rw [Ne, ValidateUpdateSubscription_eq_none]
    intro e
    rw [e] at hmem
    simp at hmem

/-- Witness for C7: a request that renames the service and clears the end date. -/
theorem ValidateUpdateSubscription_nil_iff_witness :
    IsASCII "Netflix" ∧
    ValidateUpdateSubscription
      { ServiceName := "Netflix", Price := 5, StartDate := "02-2024", EndDate := "null" } =
      none ∧
    ValidateUpdateSubscription
      { ServiceName := "Netflix", Price := 5, StartDate := "null", EndDate := "" } ≠ none :=
  ⟨by unfold IsASCII; decide,
   (ValidateUpdateSubscription_nil_iff.1
      { ServiceName := "Netflix", Price := 5, StartDate := "02-2024", EndDate := "null" }
      (by unfold IsASCII; decide)).mpr
      ⟨by decide, by decide, Or.inr (by decide), Or.inr (Or.inl rfl)⟩,
   (ValidateUpdateSubscription_nil_iff.2.2.2
      { ServiceName := "Netflix", Price := 5, StartDate := "null", EndDate := "" } rfl).1⟩

/-- C8: for a request whose service-name filter is absent or ASCII,
`ValidateAggregationRequest` returns nil if and only if both date tokens are
non-empty and parse and the service-name filter is absent or at most 255 long;
a missing start or end token yields an error tagged with that field (both when
both are missing); an error tagged `user_id` appears exactly when an owner
identifier is provided and its textual form is the empty token. -/
theorem ValidateAggregationRequest_nil_iff :
    (∀ req : AggregationRequest, (∀ n, req.ServiceName = some n → IsASCII n) →
      (ValidateAggregationRequest req = none ↔
        (req.StartDate ≠ "" ∧ parseOk req.StartDate = true) ∧
        (req.EndDate ≠ "" ∧ parseOk req.EndDate = true) ∧
        (∀ n, req.ServiceName = some n → n.length ≤ 255))) ∧
    (∀ req : AggregationRequest, req.StartDate = "" →
      ValidationError.mk "start_date" "дата начала обязательна" ∈
        errorsOf (ValidateAggregationRequest req)) ∧
    (∀ req : AggregationRequest, req.EndDate = "" →
      ValidationError.mk "end_date" "дата окончания обязательна" ∈
        errorsOf (ValidateAggregationRequest req)) ∧
    (∀ req : AggregationRequest, req.StartDate = "" → req.EndDate = "" →
      List.IsPrefix
        [ValidationError.mk "start_date" "дата начала обязательна",
         ValidationError.mk "end_date" "дата окончания обязательна"]
        (errorsOf (ValidateAggregationRequest req))) ∧
    (∀ req : AggregationRequest,
      (∃ e ∈ errorsOf (ValidateAggregationRequest req), e.Field = "user_id") ↔
        ∃ u, req.UserID = some u ∧ uuidString u = "") := by
  refine ⟨?_, ?_, ?_, ?_, ?_⟩
  · intro req h
    rw [ValidateAggregationRequest_eq_none, ValidateAggregationRequest_errors]
    have hu : (match req.UserID with
        | some userID =>
          if uuidString userID = "" then
            [ValidationError.mk "user_id" "ID пользователя не может быть пустым"]
          else []
        | none => []) = [] := by
      cases req.UserID with
      | none => rfl
      | some u => simp [uuidString_ne_empty u]
    rw [hu]
    have hs : (match req.ServiceName with
        | some serviceName =>
          if goLen serviceName > 255 then
            [ValidationError.mk "service_name"
              "название сервиса не должно превышать 255 символов"]
          else []
        | none => []) = [] ↔ ∀ n, req.ServiceName = some n → n.length ≤ 255 := by
      cases hn : req.ServiceName with
      | none => simp
      | some n =>
        have := goLen_ascii n (h n hn)
        simp [this]
    have hA : (if req.StartDate = "" then
          [ValidationError.mk "start_date" "дата начала обязательна"]
        else if (!parseOk req.StartDate) = true then
          [ValidationError.mk "start_date" "дата начала должна быть в формате MM-YYYY"]
        else []) = [] ↔ (req.StartDate ≠ "" ∧ parseOk req.StartDate = true) := by
      by_cases e : req.StartDate = ""
      · simp [e]
      · cases parseOk req.StartDate <;> simp [e]
    have hB : (if req.EndDate = "" then
          [ValidationError.mk "end_date" "дата окончания обязательна"]
        else if (!parseOk req.EndDate) = true then
          [ValidationError.mk "end_date" "дата окончания должна быть в формате MM-YYYY"]
        else []) = [] ↔ (req.EndDate ≠ "" ∧ parseOk req.EndDate = true) := by
      by_cases e : req.EndDate = ""
      · simp [e]
      · cases parseOk req.EndDate <;> simp [e]
    simp only [List.append_eq_nil, hA, hB, hs, and_true, List.append_nil]
    constructor
    · rintro ⟨⟨h1, h2⟩, h3⟩
      exact ⟨h1, h2, h3⟩
    · rintro ⟨h1, h2, h3⟩
      exact ⟨⟨h1, h2⟩, h3⟩
  · intro req h
    rw [ValidateAggregationRequest_errors]
    simp [h]
  · intro req h
    rw [ValidateAggregationRequest_errors]
    simp [h]
  · intro req h1 h2
    rw [ValidateAggregationRequest_errors]
    simp only [h1, h2, if_true, List.append_assoc]
    exact ⟨_, rfl⟩
  · intro req
    rw [ValidateAggregationRequest_errors]
    constructor
    · rintro ⟨e, he, hf⟩
      simp only [List.mem_append] at he
      rcases he with ((he | he) | he) | he
      · exfalso
        split at he
        · simp at he
          rw [he] at hf
          exact absurd hf (by decide)
        · split at he
          · simp at he
            rw [he] at hf
            exact absurd hf (by decide)
          · simp at he
      · exfalso
        split at he
        · simp at he
          rw [he] at hf
          exact absurd hf (by decide)
        · split at he
          · simp at he
            rw [he] at hf
            exact absurd hf (by decide)
          · simp at he
      · cases hu : req.UserID with
        | none => simp [hu] at he
        | some u =>
          by_cases hs : uuidString u = ""
          · exact ⟨u, rfl, hs⟩
          · simp [hu, hs] at he
      · exfalso
        cases hn : req.ServiceName with
        | none => simp [hn] at he
        | some n =>
          simp only [hn] at he
          split at he
          · simp at he
            rw [he] at hf
            exact absurd hf (by decide)
          · simp at he
    · rintro ⟨u, hu, hs⟩
      refine ⟨ValidationError.mk "user_id" "ID пользователя не может быть пустым", ?_, rfl⟩
      simp [hu, hs]

/-- Witness for C8: a request over January to March 2024 with a service filter,
and a request with neither date. -/
theorem ValidateAggregationRequest_nil_iff_witness :
    (∀ n, (some "Netflix" : Option String) = some n → IsASCII n) ∧
    ValidateAggregationRequest
      { UserID := some sampleUUID, ServiceName := some "Netflix", StartDate := "01-2024",
        EndDate := "03-2024" } = none ∧
    ValidationError.mk "start_date" "дата начала обязательна" ∈
      errorsOf (ValidateAggregationRequest
        { UserID := none, ServiceName := none, StartDate := "", EndDate := "" }) :=
  ⟨by intro n hn; cases hn; unfold IsASCII; decide,
   (ValidateAggregationRequest_nil_iff.1
      { UserID := some sampleUUID, ServiceName := some "Netflix", StartDate := "01-2024",
        EndDate := "03-2024" }
      (by intro n hn; cases hn; unfold IsASCII; decide)).mpr
      ⟨by decide, by decide, by intro n hn; cases hn; decide⟩,
   ValidateAggregationRequest_nil_iff.2.1
      { UserID := none, ServiceName := none, StartDate := "", EndDate := "" } rfl⟩

theorem utf8Len_replicate (n : Nat) (c : Char) :
    String.utf8Len (List.replicate n c) = n * c.utf8Size := by
  induction n with
  | zero => simp
  | succ k ih => rw [List.replicate_succ, String.utf8Len_cons, ih, Nat.succ_mul]

theorem goLen_cyrillicName : goLen cyrillicName = 256 := by
  show String.utf8Len (List.replicate 128 'я') = 256
  rw [utf8Len_replicate]
  rfl

theorem cyrillicName_ne_empty : cyrillicName ≠ "" := by
  intro h
  have h2 : (List.replicate 128 'я').length = ("" : String).data.length :=
    congrArg (fun s => s.data.length) h
  rw [List.length_replicate] at h2
  exact absurd h2 (by decide)

/-- C6, evaluated on the code: a service name of 128 Cyrillic letters has 128
characters, well within the limit of 255 characters that the error message
itself announces, and all three validators still report the service_name error,
because `len` counts the 256 bytes of the UTF-8 encoding. -/
theorem service_name_limit_counts_bytes :
    cyrillicName.length = 128 ∧ goLen cyrillicName = 256 ∧
    (∀ (uuidParse : String → Option UUID) (req : CreateSubscriptionRequest),
      ValidationError.mk "service_name" "название сервиса не должно превышать 255 символов" ∈
        errorsOf (ValidateCreateSubscription uuidParse
          { req with ServiceName := cyrillicName })) ∧
    (∀ req : UpdateSubscriptionRequest,
      ValidationError.mk "service_name" "название сервиса не должно превышать 255 символов" ∈
        errorsOf (ValidateUpdateSubscription { req with ServiceName := cyrillicName })) ∧
    (∀ req : AggregationRequest,
      ValidationError.mk "service_name" "название сервиса не должно превышать 255 символов" ∈
        errorsOf (ValidateAggregationRequest
          { req with ServiceName := some cyrillicName })) ∧
    ValidateCreateSubscription
      (uuidParseOnly "abababab-abab-abab-abab-abababababab" sampleUUID)
      { ServiceName := cyrillicName, Price := 999,
        UserID := "abababab-abab-abab-abab-abababababab", StartDate := "01-2024",
        EndDate := "" } =
      some [ValidationError.mk "service_name"
        "название сервиса не должно превышать 255 символов"] := by
  have hlen : goLen cyrillicName > 255 := by
    rw [goLen_cyrillicName]
    decide
  refine ⟨List.length_replicate 128 'я', goLen_cyrillicName, ?_, ?_, ?_, ?_⟩
  · intro uuidParse req
    rw [ValidateCreateSubscription_errors]
    simp [cyrillicName_ne_empty, hlen]
  · intro req
    rw [ValidateUpdateSubscription_errors]
    simp [cyrillicName_ne_empty, hlen]
  · intro req
    rw [ValidateAggregationRequest_errors]
    simp [hlen]
  · have h2 : parseOk "01-2024" = true := by decide
    have h4 : ("01-2024" : String) ≠ "" := by decide
    have h5 : ("abababab-abab-abab-abab-abababababab" : String) ≠ "" := by decide
    have h6 : (uuidParseOnly "abababab-abab-abab-abab-abababababab" sampleUUID
        "abababab-abab-abab-abab-abababababab").isNone = false := by
      simp [uuidParseOnly]
    unfold ValidateCreateSubscription
    simp [cyrillicName_ne_empty, hlen, h2, h4, h5, h6, returnErrors]

/-! ## The partial update query builder -/

theorem append_toString_ne (a b : String) (k j : Nat) (c d : Char) (cs ds : List Char)
    (ha : a.data = c :: cs) (hb : b.data = d :: ds) (hcd : c ≠ d) :
    a ++ toString k ≠ b ++ toString j := by
  intro e
  have e2 := congrArg String.data e
  simp only [String.data_append, ha, hb, List.cons_append, List.cons.injEq] at e2
  exact hcd e2.1

theorem price_ne_service_name (k j : Nat) :
    "price = $" ++ toString k ≠ "service_name = $" ++ toString j :=
  append_toString_ne _ _ k j 'p' 's' _ _ rfl rfl (by decide)

theorem price_ne_start_date (k j : Nat) :
    "price = $" ++ toString k ≠ "start_date = $" ++ toString j :=
  append_toString_ne _ _ k j 'p' 's' _ _ rfl rfl (by decide)

theorem price_ne_end_date (k j : Nat) :
    "price = $" ++ toString k ≠ "end_date = $" ++ toString j :=
  append_toString_ne _ _ k j 'p' 'e' _ _ rfl rfl (by decide)

theorem price_ne_updated_at (k j : Nat) :
    "price = $" ++ toString k ≠ "updated_at = $" ++ toString j :=
  append_toString_ne _ _ k j 'p' 'u' _ _ rfl rfl (by decide)

theorem ParseMonthYear_empty (t : Time) : ParseMonthYear "" ≠ Except.ok t := by
  have h : ParseMonthYear "" = Except.error "invalid date format" := by decide
  rw [h]
  intro e
  cases e

theorem ParseMonthYear_null (t : Time) : ParseMonthYear "null" ≠ Except.ok t := by
  have h : ParseMonthYear "null" = Except.error "invalid date format" := by decide
  rw [h]
  intro e
  cases e

theorem ValidateUpdateSubscription_dates (req : UpdateSubscriptionRequest)
    (hv : ValidateUpdateSubscription req = none) :
    (req.StartDate = "" ∨ ∃ t, ParseMonthYear req.StartDate = Except.ok t) ∧
    (req.EndDate = "" ∨ req.EndDate = "null" ∨ ∃ t, ParseMonthYear req.EndDate = Except.ok t) := by
  rw [ValidateUpdateSubscription_eq_none, ValidateUpdateSubscription_errors] at hv
  simp only [List.append_eq_nil, ite_eq_right_iff, List.cons_ne_nil, imp_false] at hv
  obtain ⟨⟨-, h3⟩, h4⟩ := hv
  constructor
  · by_cases e : req.StartDate = ""
    · exact Or.inl e
    · right
      apply (parseOk_eq_true _).mp
      cases hp : parseOk req.StartDate
      · exact absurd ⟨e, by simp [hp]⟩ h3
      · rfl
  · by_cases e : req.EndDate = ""
    · exact Or.inl e
    · by_cases e2 : req.EndDate = "null"
      · exact Or.inr (Or.inl e2)
      · right
        right
        apply (parseOk_eq_true _).mp
        cases hp : parseOk req.EndDate
        · exact absurd ⟨e, e2, by simp [hp]⟩ h4
        · rfl

/-- C9: for a request that passes validation and has at least one field to
assign, `UpdateSubscription` reaches the store with exactly these assignments in
this order: service_name iff the name is non-empty, price iff the price is
greater than 0, start_date (bound to the parsed start token) iff the start token
is non-empty, end_date iff the end token is non-empty, then updated_at, and the
record identifier as row selector; with price 0 no fragment assigns price. -/
theorem UpdateSubscription_assignments (id : UUID) (now : Time)
    (req : UpdateSubscriptionRequest) (hv : ValidateUpdateSubscription req = none)
    (hne : req.ServiceName ≠ "" ∨ req.Price > 0 ∨ req.StartDate ≠ "" ∨ req.EndDate ≠ "") :
    ∃ stmt, updateStatement id now req = Except.ok stmt ∧
      stmt.setParts =
        setFragments 1 ((updateAssignments req).map Prod.fst ++ ["updated_at"]) ∧
      stmt.args.map some =
        (updateAssignments req).map Prod.snd ++ [some (Value.time now), some (Value.uuid id)] ∧
      stmt.query =
        "UPDATE subscriptions SET " ++ ", ".intercalate stmt.setParts ++ " WHERE id = $" ++
          toString ((updateAssignments req).length + 2) ∧
      (req.Price = 0 → "price" ∉ (updateAssignments req).map Prod.fst ∧
        ∀ k : Nat, "price = $" ++ toString k ∉ stmt.setParts) := by
  obtain ⟨hs, he⟩ := ValidateUpdateSubscription_dates req hv
  have hsne : ∀ t, ParseMonthYear req.StartDate = Except.ok t → req.StartDate ≠ "" :=
    fun t ht e => ParseMonthYear_empty t (e ▸ ht)
  have hene : ∀ t, ParseMonthYear req.EndDate = Except.ok t →
      req.EndDate ≠ "" ∧ req.EndDate ≠ "null" :=
    fun t ht => ⟨fun e => ParseMonthYear_empty t (e ▸ ht), fun e => ParseMonthYear_null t (e ▸ ht)⟩
  have hnull : ("null" : String) ≠ "" := by decide
  by_cases h1 : req.ServiceName = "" <;> by_cases h2 : req.Price > 0 <;>
    rcases hs with hs | ⟨ts, hs⟩ <;> rcases he with he | he | ⟨te, he⟩
  all_goals
    first
    | (exfalso; rcases hne with h | h | h | h <;> contradiction)
    | skip
  all_goals
    try have hs2 := hsne _ hs
    try have he2 := (hene _ he).1
    try have he3 := (hene _ he).2
    simp [updateStatement, hv, h1, h2, hs, he, hnull, updateAssignments, setFragments,
      parsedDate, price_ne_service_name, price_ne_start_date, price_ne_end_date,
      price_ne_updated_at, *]
    try omega

/-- Witness for C9: renaming the service and moving the start date, with price 0;
the statement has three SET fragments and four bound arguments. -/
theorem UpdateSubscription_assignments_witness :
    ValidateUpdateSubscription
      { ServiceName := "Netflix", Price := 0, StartDate := "02-2024", EndDate := "" } = none ∧
    ∃ stmt, updateStatement sampleUUID (timeDate 2026 11 1 0 0 0 0 Location.UTC)
        { ServiceName := "Netflix", Price := 0, StartDate := "02-2024", EndDate := "" } =
        Except.ok stmt ∧
      stmt.setParts = ["service_name = $1", "start_date = $2", "updated_at = $3"] ∧
      stmt.args.length = 4 :=
  ⟨by decide,
   (UpdateSubscription_assignments sampleUUID (timeDate 2026 11 1 0 0 0 0 Location.UTC)
      { ServiceName := "Netflix", Price := 0, StartDate := "02-2024", EndDate := "" }
      (by decide) (Or.inl (by decide))).elim
    (fun stmt h => ⟨stmt, h.1, h.2.1.trans (by decide),
      by
        have h2 := congrArg List.length h.2.2.1
        rw [List.length_map] at h2
        exact h2.trans (by decide)⟩)⟩

/-- C10: for a validated request with a non-empty end token, the statement that
reaches the store has the end_date fragment right before updated_at, and the
value bound to it is null if and only if the token is the literal `null`;
otherwise it is the date `ParseMonthYear` returns for the token.  The request
with only `end_date = "null"` passes validation and issues the mutation that
sets end_date to null and touches updated_at, and nothing else. -/
theorem UpdateSubscription_end_date (id : UUID) (now : Time) :
    (∀ req : UpdateSubscriptionRequest, ValidateUpdateSubscription req = none →
      req.EndDate ≠ "" →
      ∃ stmt, updateStatement id now req = Except.ok stmt ∧
        stmt.setParts.get? (stmt.setParts.length - 2) =
          some ("end_date = $" ++ toString (stmt.setParts.length - 1)) ∧
        (stmt.args.get? (stmt.setParts.length - 2) = some Value.null ↔
          req.EndDate = "null") ∧
        (req.EndDate ≠ "null" →
          ∃ t, ParseMonthYear req.EndDate = Except.ok t ∧
            stmt.args.get? (stmt.setParts.length - 2) = some (Value.time t))) ∧
    ValidateUpdateSubscription
      { ServiceName := "", Price := 0, StartDate := "", EndDate := "null" } = none ∧
    updateStatement id now
      { ServiceName := "", Price := 0, StartDate := "", EndDate := "null" } =
      Except.ok
        { setParts := ["end_date = $1", "updated_at = $2"],
          query := "UPDATE subscriptions SET end_date = $1, updated_at = $2 WHERE id = $3",
          args := [Value.null, Value.time now, Value.uuid id] } := by
  have hclear : ValidateUpdateSubscription
      { ServiceName := "", Price := 0, StartDate := "", EndDate := "null" } = none := by
    decide
  refine ⟨?_, hclear, ?_⟩
  swap
  · simp [updateStatement, hclear]
    decide
  intro req hv hne
  obtain ⟨hs, he⟩ := ValidateUpdateSubscription_dates req hv
  have hsne : ∀ t, ParseMonthYear req.StartDate = Except.ok t → req.StartDate ≠ "" :=
    fun t ht e => ParseMonthYear_empty t (e ▸ ht)
  have hene : ∀ t, ParseMonthYear req.EndDate = Except.ok t →
      req.EndDate ≠ "" ∧ req.EndDate ≠ "null" :=
    fun t ht => ⟨fun e => ParseMonthYear_empty t (e ▸ ht), fun e => ParseMonthYear_null t (e ▸ ht)⟩
  have hnull : ("null" : String) ≠ "" := by decide
  by_cases h1 : req.ServiceName = "" <;> by_cases h2 : req.Price > 0 <;>
    rcases hs with hs | ⟨ts, hs⟩ <;> rcases he with he | he | ⟨te, he⟩
  all_goals
    first
    | exact absurd he hne
    | skip
  all_goals
    try have hs2 := hsne _ hs
    try have he2 := (hene _ he).1
    try have he3 := (hene _ he).2
    simp [updateStatement, hv, h1, h2, hs, he, hnull, *]

/-- Witness for C10: an end token that is a date, and the clearing request. -/
theorem UpdateSubscription_end_date_witness :
    ValidateUpdateSubscription
      { ServiceName := "", Price := 7, StartDate := "", EndDate := "03-2024" } = none ∧
    ∃ stmt, updateStatement sampleUUID (timeDate 2026 11 1 0 0 0 0 Location.UTC)
        { ServiceName := "", Price := 7, StartDate := "", EndDate := "03-2024" } =
        Except.ok stmt ∧
      stmt.args.get? (stmt.setParts.length - 2) =
        some (Value.time (timeDate 2024 3 1 0 0 0 0 Location.UTC)) :=
  ⟨by decide,
   ((UpdateSubscription_end_date sampleUUID (timeDate 2026 11 1 0 0 0 0 Location.UTC)).1
      { ServiceName := "", Price := 7, StartDate := "", EndDate := "03-2024" }
      (by decide) (by decide)).elim
    (fun stmt h => ⟨stmt, h.1,
      (h.2.2.2 (by decide)).elim (fun t ht =>
        ht.2.trans (congrArg (fun x => some (Value.time x))
          (Except.ok.inj (ht.1.symm.trans (by decide)))))⟩)⟩

/-! ## The handlers -/

theorem ValidateUpdateSubscription_price (req : UpdateSubscriptionRequest)
    (hv : ValidateUpdateSubscription req = none) : 0 ≤ req.Price := by
  rw [ValidateUpdateSubscription_eq_none, ValidateUpdateSubscription_errors] at hv
  simp only [List.append_eq_nil, ite_eq_right_iff, List.cons_ne_nil, imp_false] at hv
  omega

/-- What `UpdateSubscription` does with a validated request: without any field
it answers `No fields to update`; otherwise it builds the statement whose SET
fragments, arguments and text are those of the specification's assignments. -/
theorem updateStatement_validated (id : UUID) (now : Time) (req : UpdateSubscriptionRequest)
    (hv : ValidateUpdateSubscription req = none) :
    ((req.ServiceName = "" ∧ req.Price = 0 ∧ req.StartDate = "" ∧ req.EndDate = "") ∧
      updateStatement id now req =
        Except.error { message := "No fields to update", status := 400 }) ∨
    (¬ (req.ServiceName = "" ∧ req.Price = 0 ∧ req.StartDate = "" ∧ req.EndDate = "") ∧
      ∃ stmt, updateStatement id now req = Except.ok stmt ∧
        stmt.setParts =
          setFragments 1 ((updateAssignments req).map Prod.fst ++ ["updated_at"]) ∧
        stmt.args.map some =
          (updateAssignments req).map Prod.snd ++
            [some (Value.time now), some (Value.uuid id)] ∧
        stmt.query =
          "UPDATE subscriptions SET " ++ ", ".intercalate stmt.setParts ++ " WHERE id = $" ++
            toString ((updateAssignments req).length + 2)) := by
  obtain ⟨hs, he⟩ := ValidateUpdateSubscription_dates req hv
  have hp := ValidateUpdateSubscription_price req hv
  have hsne : ∀ t, ParseMonthYear req.StartDate = Except.ok t → req.StartDate ≠ "" :=
    fun t ht e => ParseMonthYear_empty t (e ▸ ht)
  have hene : ∀ t, ParseMonthYear req.EndDate = Except.ok t →
      req.EndDate ≠ "" ∧ req.EndDate ≠ "null" :=
    fun t ht => ⟨fun e => ParseMonthYear_empty t (e ▸ ht), fun e => ParseMonthYear_null t (e ▸ ht)⟩
  have hnull : ("null" : String) ≠ "" := by decide
  by_cases h1 : req.ServiceName = "" <;> by_cases h2 : req.Price > 0 <;>
    rcases hs with hs | ⟨ts, hs⟩ <;> rcases he with he | he | ⟨te, he⟩
  all_goals
    try have hs2 := hsne _ hs
    try have he2 := (hene _ he).1
    try have he3 := (hene _ he).2
    try have hp0 : req.Price = 0 := by omega
    try have hp1 : req.Price ≠ 0 := by omega
    simp [updateStatement, hv, h1, h2, hs, he, hnull, updateAssignments, setFragments,
      parsedDate, *]

/-- C11: for a validated request, `UpdateSubscription` answers 400
`No fields to update` if and only if the service name is empty, the price is 0
and both date tokens are empty (the timestamp touch does not count as a field).
In that case the handler returns without calling the store, whatever the store
is; in the other case the response comes after the store call and is never
`No fields to update`.  The bodies `{}` and `{price:0}` both decode to the
all-empty request and fail this way. -/
theorem UpdateSubscription_no_fields_iff :
    (∀ (id : UUID) (now : Time) (req : UpdateSubscriptionRequest),
      ValidateUpdateSubscription req = none →
      (updateStatement id now req =
          Except.error { message := "No fields to update", status := 400 } ↔
        req.ServiceName = "" ∧ req.Price = 0 ∧ req.StartDate = "" ∧ req.EndDate = "")) ∧
    (∀ (σ : Type) (uuidParse : String → Option UUID)
      (exec : σ → String → List Value → ExecOutcome × σ) (now : Time) (idStr : String)
      (id : UUID) (req : UpdateSubscriptionRequest) (db : σ),
      uuidParse idStr = some id → ValidateUpdateSubscription req = none →
      (req.ServiceName = "" ∧ req.Price = 0 ∧ req.StartDate = "" ∧ req.EndDate = "" →
        UpdateSubscription uuidParse exec now idStr (some req) db =
          ({ status := 400, body := "No fields to update" }, db)) ∧
      (¬ (req.ServiceName = "" ∧ req.Price = 0 ∧ req.StartDate = "" ∧ req.EndDate = "") →
        (UpdateSubscription uuidParse exec now idStr (some req) db).1.body ≠
            "No fields to update" ∧
        ∃ stmt, updateStatement id now req = Except.ok stmt ∧
          (UpdateSubscription uuidParse exec now idStr (some req) db).2 =
            (exec db stmt.query stmt.args).2)) ∧
    (∀ (id : UUID) (now : Time),
      updateStatement id now { ServiceName := "", Price := 0, StartDate := "", EndDate := "" } =
        Except.error { message := "No fields to update", status := 400 }) := by
  refine ⟨?_, ?_, ?_⟩
  · intro id now req hv
    rcases updateStatement_validated id now req hv with ⟨h, e⟩ | ⟨h, stmt, e, -⟩
    · simp [e, h]
    · rw [e]
      constructor
      · intro x
        cases x
      · intro x
        exact absurd x h
  · intro σ uuidParse exec now idStr id req db hid hv
    rcases updateStatement_validated id now req hv with ⟨h, e⟩ | ⟨h, stmt, e, -⟩
    · refine ⟨fun _ => ?_, fun x => absurd h x⟩
      simp [UpdateSubscription, hid, e]
    · refine ⟨fun x => absurd x h, fun _ => ?_⟩
      have hbody : ("Failed to update subscription" : String) ≠ "No fields to update" := by
        decide
      have hbody2 : ("Subscription not found" : String) ≠ "No fields to update" := by decide
      have hbody3 : ("" : String) ≠ "No fields to update" := by decide
      constructor
      · simp only [UpdateSubscription, hid, e]
        rcases exec db stmt.query stmt.args with ⟨_ | (_ | rows), db'⟩
        · exact hbody
        · exact hbody
        · by_cases hr : rows = 0
          · simp only [hr, if_true]
            exact hbody2
          · simp only [hr, if_false]
            exact hbody3
      · refine ⟨stmt, e, ?_⟩
        simp only [UpdateSubscription, hid, e]
        rcases exec db stmt.query stmt.args with ⟨_ | (_ | rows), db'⟩
        · rfl
        · rfl
        · by_cases hr : rows = 0 <;> simp [hr]
  · intro id now
    have hv : ValidateUpdateSubscription
        { ServiceName := "", Price := 0, StartDate := "", EndDate := "" } = none := by decide
    rcases updateStatement_validated id now _ hv with ⟨_, e⟩ | ⟨h, -⟩
    · exact e
    · exact absurd ⟨rfl, rfl, rfl, rfl⟩ h

/-- Witness for C11: the empty body against a store that records its calls: the
response is 400 and nothing was recorded. -/
theorem UpdateSubscription_no_fields_iff_witness :
    uuidParseOnly "abababab-abab-abab-abab-abababababab" sampleUUID
      "abababab-abab-abab-abab-abababababab" = some sampleUUID ∧
    ValidateUpdateSubscription
      { ServiceName := "", Price := 0, StartDate := "", EndDate := "" } = none ∧
    UpdateSubscription (uuidParseOnly "abababab-abab-abab-abab-abababababab" sampleUUID)
      recordingExec (timeDate 2026 11 1 0 0 0 0 Location.UTC)
      "abababab-abab-abab-abab-abababababab"
      (some { ServiceName := "", Price := 0, StartDate := "", EndDate := "" }) [] =
      ({ status := 400, body := "No fields to update" }, []) :=
  ⟨by decide, by decide,
   (UpdateSubscription_no_fields_iff.2.1 _ _ recordingExec _ _ sampleUUID
      { ServiceName := "", Price := 0, StartDate := "", EndDate := "" } []
      (by decide) (by decide)).1 ⟨rfl, rfl, rfl, rfl⟩⟩

theorem DeleteSubscription_storeExec (uuidParse : String → Option UUID) (idStr : String)
    (id : UUID) (db : List Subscription) (hid : uuidParse idStr = some id) :
    DeleteSubscription uuidParse storeExec idStr db =
      (if (db.filter (fun r => decide (r.ID = id))).length = 0 then
          ({ status := 404, body := "Subscription not found" } : Response)
        else { status := 204, body := "" },
       db.filter (fun r => decide (r.ID ≠ id))) := by
  simp only [DeleteSubscription, hid, storeExec, if_true]
  by_cases h : (db.filter (fun r => decide (r.ID = id))).length = 0
  · simp [h]
  · have h2 : ((db.filter (fun r => decide (r.ID = id))).length : Int) ≠ 0 := by
      exact_mod_cast h
    simp [h, h2]

/-- C14: with the store modelled as the rows of the table and `DELETE` returning
the number of rows removed, `DeleteSubscription` on a well-formed identifier
that no row carries answers 404 `Subscription not found` and leaves the store
as it was; on an identifier that a row carries it answers 204, and a second
call with the same identifier answers 404 and nothing else. -/
theorem DeleteSubscription_not_found (uuidParse : String → Option UUID) (idStr : String)
    (id : UUID) (db : List Subscription) (hid : uuidParse idStr = some id) :
    ((∀ r ∈ db, r.ID ≠ id) →
      DeleteSubscription uuidParse storeExec idStr db =
        ({ status := 404, body := "Subscription not found" }, db)) ∧
    ((∃ r ∈ db, r.ID = id) →
      (DeleteSubscription uuidParse storeExec idStr db).1 = { status := 204, body := "" } ∧
      (∀ r ∈ (DeleteSubscription uuidParse storeExec idStr db).2, r.ID ≠ id) ∧
      DeleteSubscription uuidParse storeExec idStr
          (DeleteSubscription uuidParse storeExec idStr db).2 =
        ({ status := 404, body := "Subscription not found" },
          (DeleteSubscription uuidParse storeExec idStr db).2)) := by
  have hnone : ∀ l : List Subscription, (∀ r ∈ l, r.ID ≠ id) →
      DeleteSubscription uuidParse storeExec idStr l =
        ({ status := 404, body := "Subscription not found" }, l) := by
    intro l hl
    rw [DeleteSubscription_storeExec uuidParse idStr id l hid]
    have h1 : l.filter (fun r => decide (r.ID = id)) = [] := by
      rw [List.filter_eq_nil_iff]
      intro r hr
      simpa using hl r hr
    have h2 : l.filter (fun r => decide (r.ID ≠ id)) = l := by
      rw [List.filter_eq_self]
      intro r hr
      simpa using hl r hr
    rw [h1, h2]
    rfl
  refine ⟨hnone db, ?_⟩
  rintro ⟨r, hr, hrid⟩
  have hafter : ∀ x ∈ (DeleteSubscription uuidParse storeExec idStr db).2, x.ID ≠ id := by
    rw [DeleteSubscription_storeExec uuidParse idStr id db hid]
    intro x hx
    simpa using (List.mem_filter.mp hx).2
  refine ⟨?_, hafter, hnone _ hafter⟩
  rw [DeleteSubscription_storeExec uuidParse idStr id db hid]
  have hmem : r ∈ db.filter (fun r => decide (r.ID = id)) :=
    List.mem_filter.mpr ⟨hr, by simpa using hrid⟩
  have hlen : (db.filter (fun r => decide (r.ID = id))).length ≠ 0 := by
    intro h0
    rw [List.length_eq_zero] at h0
    rw [h0] at hmem
    simp at hmem
  simp [hlen]

/-- Witness for C14: a store with one row, deleted twice. -/
theorem DeleteSubscription_not_found_witness :
    uuidParseOnly "abababab-abab-abab-abab-abababababab" sampleUUID
      "abababab-abab-abab-abab-abababababab" = some sampleUUID ∧
    (DeleteSubscription (uuidParseOnly "abababab-abab-abab-abab-abababababab" sampleUUID)
      storeExec "abababab-abab-abab-abab-abababababab" [sampleRow]).1 =
      { status := 204, body := "" } ∧
    DeleteSubscription (uuidParseOnly "abababab-abab-abab-abab-abababababab" sampleUUID)
      storeExec "abababab-abab-abab-abab-abababababab" [] =
      ({ status := 404, body := "Subscription not found" }, []) :=
  ⟨by decide,
   ((DeleteSubscription_not_found _ "abababab-abab-abab-abab-abababababab" sampleUUID
      [sampleRow] (by decide)).2 ⟨sampleRow, by simp, rfl⟩).1,
   (DeleteSubscription_not_found _ "abababab-abab-abab-abab-abababababab" sampleUUID
      [] (by decide)).1 (by simp)⟩

theorem ValidateAggregationRequest_dates (req : AggregationRequest)
    (hv : ValidateAggregationRequest req = none) :
    ∃ s e, ParseMonthYear req.StartDate = Except.ok s ∧
      ParseMonthYear req.EndDate = Except.ok e := by
  rw [ValidateAggregationRequest_eq_none, ValidateAggregationRequest_errors] at hv
  simp only [List.append_eq_nil] at hv
  obtain ⟨⟨⟨h1, h2⟩, -⟩, -⟩ := hv
  have hs : parseOk req.StartDate = true := by
    by_cases e : req.StartDate = ""
    · simp [e] at h1
    · cases hp : parseOk req.StartDate
      · simp [e, hp] at h1
      · rfl
  have he : parseOk req.EndDate = true := by
    by_cases e : req.EndDate = ""
    · simp [e] at h2
    · cases hp : parseOk req.EndDate
      · simp [e, hp] at h2
      · rfl
  obtain ⟨s, hs⟩ := (parseOk_eq_true _).mp hs
  obtain ⟨e, he⟩ := (parseOk_eq_true _).mp he
  exact ⟨s, e, hs, he⟩

set_option maxRecDepth 20000 in
/-- The statement `AggregateSubscriptions` builds for a validated request, by
the filters present. -/
theorem aggregateStatement_validated (req : AggregationRequest)
    (hv : ValidateAggregationRequest req = none) :
    ∃ s e, ParseMonthYear req.StartDate = Except.ok s ∧
      ParseMonthYear req.EndDate = Except.ok e ∧
      aggregateStatement req = Except.ok
        (match req.UserID, req.ServiceName with
          | none, none =>
            { query := aggregateBaseQuery, args := [Value.time s, Value.time e] }
          | some u, none =>
            { query := aggregateBaseQuery ++ " AND user_id = $3",
              args := [Value.time s, Value.time e, Value.uuid u] }
          | none, some n =>
            { query := aggregateBaseQuery ++ " AND service_name ILIKE $3",
              args := [Value.time s, Value.time e, Value.str ("%" ++ n ++ "%")] }
          | some u, some n =>
            { query := aggregateBaseQuery ++ " AND user_id = $3 AND service_name ILIKE $4",
              args := [Value.time s, Value.time e, Value.uuid u,
                Value.str ("%" ++ n ++ "%")] }) := by
  obtain ⟨s, e, hs, he⟩ := ValidateAggregationRequest_dates req hv
  refine ⟨s, e, hs, he, ?_⟩
  have q1 : aggregateBaseQuery ++ (" AND user_id = $" ++ toString (2 + 1)) =
      aggregateBaseQuery ++ " AND user_id = $3" := by decide
  have q2 : aggregateBaseQuery ++ (" AND service_name ILIKE $" ++ toString (2 + 1)) =
      aggregateBaseQuery ++ " AND service_name ILIKE $3" := by decide
  have q3 : aggregateBaseQuery ++ " AND user_id = $3" ++
      (" AND service_name ILIKE $" ++ toString (2 + 1 + 1)) =
      aggregateBaseQuery ++ " AND user_id = $3 AND service_name ILIKE $4" := by decide
  unfold aggregateStatement
  simp only [hv, hs, he]
  cases req.UserID <;> cases req.ServiceName
  · rfl
  · simp only [q2, List.cons_append, List.nil_append]
  · simp only [q1, List.cons_append, List.nil_append]
  · simp only [q1, q3, List.cons_append, List.nil_append]

set_option maxRecDepth 20000 in
theorem storeGet_filtered (ilike : String → String → Bool) (db : List Subscription)
    (s e : Time) (userID : Option UUID) (serviceName : Option String) :
    storeGet ilike db
      (match userID, serviceName with
        | none, none =>
          ({ query := aggregateBaseQuery, args := [Value.time s, Value.time e] } : Statement)
        | some u, none =>
          { query := aggregateBaseQuery ++ " AND user_id = $3",
            args := [Value.time s, Value.time e, Value.uuid u] }
        | none, some n =>
          { query := aggregateBaseQuery ++ " AND service_name ILIKE $3",
            args := [Value.time s, Value.time e, Value.str ("%" ++ n ++ "%")] }
        | some u, some n =>
          { query := aggregateBaseQuery ++ " AND user_id = $3 AND service_name ILIKE $4",
            args := [Value.time s, Value.time e, Value.uuid u,
              Value.str ("%" ++ n ++ "%")] }).query
      (match userID, serviceName with
        | none, none =>
          ({ query := aggregateBaseQuery, args := [Value.time s, Value.time e] } : Statement)
        | some u, none =>
          { query := aggregateBaseQuery ++ " AND user_id = $3",
            args := [Value.time s, Value.time e, Value.uuid u] }
        | none, some n =>
          { query := aggregateBaseQuery ++ " AND service_name ILIKE $3",
            args := [Value.time s, Value.time e, Value.str ("%" ++ n ++ "%")] }
        | some u, some n =>
          { query := aggregateBaseQuery ++ " AND user_id = $3 AND service_name ILIKE $4",
            args := [Value.time s, Value.time e, Value.uuid u,
              Value.str ("%" ++ n ++ "%")] }).args =
      Except.ok (filteredTotal ilike s e userID serviceName db) := by
  have n1 : aggregateBaseQuery ++ " AND user_id = $3" ≠ aggregateBaseQuery := by decide
  have n2 : aggregateBaseQuery ++ " AND service_name ILIKE $3" ≠ aggregateBaseQuery := by
    decide
  have n3 : aggregateBaseQuery ++ " AND service_name ILIKE $3" ≠
      aggregateBaseQuery ++ " AND user_id = $3" := by decide
  have n4 : aggregateBaseQuery ++ " AND user_id = $3 AND service_name ILIKE $4" ≠
      aggregateBaseQuery := by decide
  have n5 : aggregateBaseQuery ++ " AND user_id = $3 AND service_name ILIKE $4" ≠
      aggregateBaseQuery ++ " AND user_id = $3" := by decide
  have n6 : aggregateBaseQuery ++ " AND user_id = $3 AND service_name ILIKE $4" ≠
      aggregateBaseQuery ++ " AND service_name ILIKE $3" := by decide
  have hsel : ∀ (u : Option UUID) (n : Option String),
      db.filter (rowSelected ilike s e u (n.map (fun n => "%" ++ n ++ "%"))) =
        db.filter (fun r => inRange s e r && ownedBy u r && nameLike ilike n r) := by
    intro u n
    apply List.filter_congr
    intro r _
    cases u <;> cases n <;> simp [rowSelected, inRange, ownedBy, nameLike]
  cases userID <;> cases serviceName
  · simp only [storeGet, if_true, filteredTotal]
    rw [← hsel none none]
    rfl
  · simp only [storeGet, n2, n3, if_true, if_false, filteredTotal]
    rw [← hsel none (some _)]
    rfl
  · simp only [storeGet, n1, if_true, if_false, filteredTotal]
    rw [← hsel (some _) none]
    rfl
  · simp only [storeGet, n4, n5, n6, if_true, if_false, filteredTotal]
    rw [← hsel (some _) (some _)]
    rfl

/-- C12, as amended: with the store modelled as the rows of the table,
`AggregateSubscriptions` on a validated request with parsed range `[s, e]`
returns as total_cost the sum of price over exactly the records whose start
date is at or after `s` and whose end date is null or at or before `e`,
restricted to the given owner when that filter is present and to the records
whose service name matches the pattern `%name%` when the service-name filter is
present; without a service-name filter this is the total over range and owner
alone, and it is 0 when no record is selected. -/
theorem AggregateSubscriptions_total (ilike : String → String → Bool)
    (db : List Subscription) (req : AggregationRequest)
    (hv : ValidateAggregationRequest req = none) :
    ∃ s e, ParseMonthYear req.StartDate = Except.ok s ∧
      ParseMonthYear req.EndDate = Except.ok e ∧
      AggregateSubscriptions (storeGet ilike) (some req) db =
        Except.ok
          { TotalCost := filteredTotal ilike s e req.UserID req.ServiceName db,
            Period := req.StartDate ++ " to " ++ req.EndDate,
            UserID := req.UserID } ∧
      (req.ServiceName = none →
        filteredTotal ilike s e req.UserID req.ServiceName db =
          rangeOwnerTotal s e req.UserID db) ∧
      ((∀ r ∈ db, (inRange s e r && ownedBy req.UserID r &&
          nameLike ilike req.ServiceName r) = false) →
        filteredTotal ilike s e req.UserID req.ServiceName db = 0) := by
  obtain ⟨s, e, hs, he, hst⟩ := aggregateStatement_validated req hv
  refine ⟨s, e, hs, he, ?_, ?_, ?_⟩
  · simp only [AggregateSubscriptions, hst, storeGet_filtered]
  · intro hn
    rw [hn]
    simp [filteredTotal, rangeOwnerTotal, nameLike]
  · intro hall
    have : db.filter (fun r => inRange s e r && ownedBy req.UserID r &&
        nameLike ilike req.ServiceName r) = [] := by
      rw [List.filter_eq_nil_iff]
      intro r hr
      simp [hall r hr]
    simp [filteredTotal, this, sumPrice]

set_option maxRecDepth 20000 in
/-- Witness for C12: the two records of the specification's example over
January to March 2024, without filters: the total is 800. -/
theorem AggregateSubscriptions_total_witness :
    ValidateAggregationRequest
      { UserID := none, ServiceName := none, StartDate := "01-2024", EndDate := "03-2024" } =
      none ∧
    AggregateSubscriptions (storeGet ilikeContains)
      (some { UserID := none, ServiceName := none, StartDate := "01-2024",
              EndDate := "03-2024" })
      [sampleRow, sampleRow2] =
      Except.ok { TotalCost := 800, Period := "01-2024 to 03-2024", UserID := none } :=
  ⟨by decide,
   (AggregateSubscriptions_total ilikeContains [sampleRow, sampleRow2]
      { UserID := none, ServiceName := none, StartDate := "01-2024", EndDate := "03-2024" }
      (by decide)).elim
    (fun s h => h.elim (fun e h =>
      h.2.2.1.trans (by
        have hs : s = timeDate 2024 1 1 0 0 0 0 Location.UTC :=
          Except.ok.inj (h.1.symm.trans (by decide))
        have he : e = timeDate 2024 3 1 0 0 0 0 Location.UTC :=
          Except.ok.inj (h.2.1.symm.trans (by decide))
        subst hs
        subst he
        decide)))⟩

set_option maxRecDepth 20000 in
/-- C12 as worded fails: with one Netflix record of price 500 in range and a
request that filters on the service name `Spotify`, the handler returns 0,
while the sum over range and owner alone is 500. -/
theorem AggregateSubscriptions_service_filter_counterexample :
    ValidateAggregationRequest
      { UserID := none, ServiceName := some "Spotify", StartDate := "01-2024",
        EndDate := "03-2024" } = none ∧
    ParseMonthYear "01-2024" = Except.ok (timeDate 2024 1 1 0 0 0 0 Location.UTC) ∧
    ParseMonthYear "03-2024" = Except.ok (timeDate 2024 3 1 0 0 0 0 Location.UTC) ∧
    AggregateSubscriptions (storeGet ilikeContains)
      (some { UserID := none, ServiceName := some "Spotify", StartDate := "01-2024",
              EndDate := "03-2024" })
      [sampleRow] =
      Except.ok { TotalCost := 0, Period := "01-2024 to 03-2024", UserID := none } ∧
    rangeOwnerTotal (timeDate 2024 1 1 0 0 0 0 Location.UTC)
      (timeDate 2024 3 1 0 0 0 0 Location.UTC) none [sampleRow] = 500 := by
  refine ⟨by decide, by decide, by decide, by decide, by decide⟩

theorem Atoi_nil : Atoi [] = none := rfl

theorem intercalate_one (sep a : String) : sep.intercalate [a] = a := rfl

theorem intercalate_two (sep a b : String) : sep.intercalate [a, b] = a ++ sep ++ b := rfl

theorem toString_one : toString (1 : Nat) = "1" := rfl

theorem toString_two : toString (2 : Nat) = "2" := rfl

/-- The statement `ListSubscriptions` builds, when the identifier filter is
absent or well-formed: the text before the pagination, the number of arguments,
and the pagination by what `strconv.Atoi` makes of the two parameters. -/
theorem listStatement_ok (uuidParse : String → Option UUID) (params : ListParams)
    (hu : params.user_id = "" ∨ (uuidParse params.user_id).isSome = true) :
    ∃ stmt, listStatement uuidParse params = Except.ok stmt ∧
      stmt.limit =
        ((Atoi params.limit.data).filter (fun n => decide (1 ≤ n ∧ n ≤ 1000))).getD 100 ∧
      stmt.offset = ((Atoi params.offset.data).filter (fun n => decide (0 ≤ n))).getD 0 ∧
      stmt.query =
        "SELECT * FROM subscriptions" ++
          (if params.user_id ≠ "" then
            if params.service_name ≠ "" then " WHERE user_id = $1 AND service_name ILIKE $2"
            else " WHERE user_id = $1"
           else if params.service_name ≠ "" then " WHERE service_name ILIKE $1"
           else "") ++
          " ORDER BY created_at DESC" ++ " LIMIT " ++ toString stmt.limit ++
          (((Atoi params.offset.data).filter (fun n => decide (0 ≤ n))).map
            (fun n => " OFFSET " ++ toString n)).getD "" ∧
      stmt.args.length =
        (if params.user_id ≠ "" then 1 else 0) + (if params.service_name ≠ "" then 1 else 0) := by
  have hLim : Atoi params.limit.data = none ∨
      (∃ n, Atoi params.limit.data = some n ∧ (0 < n ∧ n ≤ 1000) ∧ (1 ≤ n ∧ n ≤ 1000)) ∨
      (∃ n, Atoi params.limit.data = some n ∧ ¬ (0 < n ∧ n ≤ 1000) ∧
        ¬ (1 ≤ n ∧ n ≤ 1000)) := by
    cases h : Atoi params.limit.data with
    | none => exact Or.inl rfl
    | some n =>
      by_cases hr : 0 < n ∧ n ≤ 1000
      · exact Or.inr (Or.inl ⟨n, rfl, hr, by omega⟩)
      · exact Or.inr (Or.inr ⟨n, rfl, hr, by omega⟩)
  have hOff : Atoi params.offset.data = none ∨
      (∃ n, Atoi params.offset.data = some n ∧ 0 ≤ n) ∨
      (∃ n, Atoi params.offset.data = some n ∧ ¬ 0 ≤ n) := by
    cases h : Atoi params.offset.data with
    | none => exact Or.inl rfl
    | some n =>
      by_cases hr : 0 ≤ n
      · exact Or.inr (Or.inl ⟨n, rfl, hr⟩)
      · exact Or.inr (Or.inr ⟨n, rfl, hr⟩)
  have hle : ∀ n, Atoi params.limit.data = some n → params.limit ≠ "" := by
    intro n h e
    rw [e] at h
    cases h
  have hoe : ∀ n, Atoi params.offset.data = some n → params.offset ≠ "" := by
    intro n h e
    rw [e] at h
    cases h
  unfold listStatement
  by_cases hu0 : params.user_id = ""
  · by_cases hs : params.service_name = "" <;>
      rcases hLim with hA | ⟨n, hA, hr, hr2⟩ | ⟨n, hA, hr, hr2⟩ <;>
      rcases hOff with hB | ⟨m, hB, hm⟩ | ⟨m, hB, hm⟩
    all_goals
      try have hl := hle _ hA
      try have ho := hoe _ hB
      simp [*, String.append_assoc, Option.filter]
      try simp only [intercalate_one, intercalate_two, toString_one, toString_two,
        ← String.append_assoc, String.reduceAppend]
  · obtain ⟨u, hu1⟩ : ∃ u, uuidParse params.user_id = some u := by
      rcases hu with hu | hu
      · exact absurd hu hu0
      · exact Option.isSome_iff_exists.mp hu
    by_cases hs : params.service_name = "" <;>
      rcases hLim with hA | ⟨n, hA, hr, hr2⟩ | ⟨n, hA, hr, hr2⟩ <;>
      rcases hOff with hB | ⟨m, hB, hm⟩ | ⟨m, hB, hm⟩
    all_goals
      try have hl := hle _ hA
      try have ho := hoe _ hB
      simp [*, String.append_assoc, Option.filter]
      try simp only [intercalate_one, intercalate_two, toString_one, toString_two,
        ← String.append_assoc, String.reduceAppend]

/-- C13: whatever the `limit` and `offset` parameters are, `ListSubscriptions`
(with an absent or well-formed identifier filter) builds its query with a LIMIT
in `[1,1000]`: the parameter's value when `strconv.Atoi` reads it as an integer
in `[1,1000]`, and 100 otherwise (absent, not a number, 0, negative, above
1000).  The offset is the parameter's value when it is read as an integer at
least 0, written as an OFFSET clause, and 0 with no clause otherwise.  The query
always orders by `created_at DESC`, between the conditions and the LIMIT. -/
theorem ListSubscriptions_pagination (uuidParse : String → Option UUID) (params : ListParams)
    (hu : params.user_id = "" ∨ (uuidParse params.user_id).isSome = true) :
    ∃ stmt, listStatement uuidParse params = Except.ok stmt ∧
      (1 ≤ stmt.limit ∧ stmt.limit ≤ 1000) ∧
      (∀ n, Atoi params.limit.data = some n → 1 ≤ n → n ≤ 1000 → stmt.limit = n) ∧
      ((∀ n, Atoi params.limit.data = some n → n < 1 ∨ 1000 < n) → stmt.limit = 100) ∧
      (¬ IsIntegerIn 1 1000 params.limit.data → stmt.limit = 100) ∧
      0 ≤ stmt.offset ∧
      (∀ n, Atoi params.offset.data = some n → 0 ≤ n → stmt.offset = n) ∧
      ((∀ n, Atoi params.offset.data = some n → n < 0) → stmt.offset = 0) ∧
      stmt.query =
        "SELECT * FROM subscriptions" ++
          (if params.user_id ≠ "" then
            if params.service_name ≠ "" then " WHERE user_id = $1 AND service_name ILIKE $2"
            else " WHERE user_id = $1"
           else if params.service_name ≠ "" then " WHERE service_name ILIKE $1"
           else "") ++
          " ORDER BY created_at DESC" ++ " LIMIT " ++ toString stmt.limit ++
          (((Atoi params.offset.data).filter (fun n => decide (0 ≤ n))).map
            (fun n => " OFFSET " ++ toString n)).getD "" := by
  obtain ⟨stmt, hst, hlim, hoff, hq, -⟩ := listStatement_ok uuidParse params hu
  have hlim1 : ∀ n, Atoi params.limit.data = some n → 1 ≤ n → n ≤ 1000 → stmt.limit = n := by
    intro n hn h1 h2
    rw [hlim, hn]
    simp [Option.filter, h1, h2]
  have hlim2 : (∀ n, Atoi params.limit.data = some n → n < 1 ∨ 1000 < n) →
      stmt.limit = 100 := by
    intro h
    rw [hlim]
    cases hn : Atoi params.limit.data with
    | none => rfl
    | some n =>
      have hr : ¬ (1 ≤ n ∧ n ≤ 1000) := by
        have := h n hn
        omega
      simp [Option.filter, hr]
  refine ⟨stmt, hst, ?_, hlim1, hlim2, ?_, ?_, ?_, ?_, hq⟩
  · cases hn : Atoi params.limit.data with
    | none =>
      rw [hlim2 (by simp [hn])]
      decide
    | some n =>
      by_cases hr : 1 ≤ n ∧ n ≤ 1000
      · rw [hlim1 n hn hr.1 hr.2]
        exact hr
      · rw [hlim2 (by
          intro m hm
          rw [hn] at hm
          cases hm
          omega)]
        decide
  · intro hni
    apply hlim2
    intro n hn
    by_contra hc
    exact hni (Atoi_isIntegerIn _ n 1 1000 hn (by omega) (by omega))
  · rw [hoff]
    cases hn : Atoi params.offset.data with
    | none => simp [Option.filter]
    | some n =>
      by_cases hr : 0 ≤ n
      · simp [Option.filter, hr]
      · simp [Option.filter, hr]
  · intro n hn h0
    rw [hoff, hn]
    simp [Option.filter, h0]
  · intro h
    rw [hoff]
    cases hn : Atoi params.offset.data with
    | none => rfl
    | some n =>
      have hr : ¬ 0 ≤ n := by
        have := h n hn
        omega
      simp [Option.filter, hr]

/-- Witness for C13: `limit=50&offset=10` is used as given, and `limit=5000`
with `offset=-1` falls back to LIMIT 100 without OFFSET. -/
theorem ListSubscriptions_pagination_witness :
    listStatement (uuidParseOnly "abababab-abab-abab-abab-abababababab" sampleUUID)
      { user_id := "", service_name := "net", limit := "50", offset := "10" } =
      Except.ok
        { query := "SELECT * FROM subscriptions WHERE service_name ILIKE $1 ORDER BY created_at DESC LIMIT 50 OFFSET 10",
          args := [Value.str "%net%"], limit := 50, offset := 10 } ∧
    ∃ stmt, listStatement (uuidParseOnly "abababab-abab-abab-abab-abababababab" sampleUUID)
        { user_id := "", service_name := "", limit := "5000", offset := "-1" } =
        Except.ok stmt ∧ stmt.limit = 100 ∧ stmt.offset = 0 :=
  ⟨by decide,
   (ListSubscriptions_pagination
      (uuidParseOnly "abababab-abab-abab-abab-abababababab" sampleUUID)
      { user_id := "", service_name := "", limit := "5000", offset := "-1" }
      (Or.inl rfl)).elim
    (fun stmt h => ⟨stmt, h.1,
      h.2.2.2.1 (by
        intro n hn
        have h5 : Atoi ("5000" : String).data = some 5000 := by decide
        rw [h5] at hn
        cases hn
        decide),
      h.2.2.2.2.2.2.2.1 (by
        intro n hn
        have h1 : Atoi ("-1" : String).data = some (-1) := by decide
        rw [h1] at hn
        cases hn
        decide)⟩)⟩

theorem ValidateCreateSubscription_valid (uuidParse : String → Option UUID)
    (req : CreateSubscriptionRequest) (hv : ValidateCreateSubscription uuidParse req = none) :
    (∃ u, uuidParse req.UserID = some u) ∧
    (∃ s, ParseMonthYear req.StartDate = Except.ok s) ∧
    (req.EndDate ≠ "" → ∃ e, ParseMonthYear req.EndDate = Except.ok e) := by
  rw [ValidateCreateSubscription_eq_none, ValidateCreateSubscription_errors] at hv
  simp only [List.append_eq_nil] at hv
  obtain ⟨⟨⟨-, h3⟩, h4⟩, h5⟩ := hv
  refine ⟨?_, ?_, ?_⟩
  · by_cases e : req.UserID = ""
    · simp [e] at h3
    · cases hp : uuidParse req.UserID with
      | none => simp [e, hp] at h3
      | some u => exact ⟨u, rfl⟩
  · apply (parseOk_eq_true _).mp
    by_cases e : req.StartDate = ""
    · simp [e] at h4
    · cases hp : parseOk req.StartDate
      · simp [e, hp] at h4
      · rfl
  · intro e
    apply (parseOk_eq_true _).mp
    cases hp : parseOk req.EndDate
    · simp [e, hp] at h5
    · rfl

theorem updateStatementWith_eq (parse : String → Except String Time)
    (hparse : ∀ s, s ≠ "null" → parse s = ParseMonthYear s) (id : UUID) (now : Time)
    (req : UpdateSubscriptionRequest) :
    updateStatementWith parse id now req = updateStatement id now req := by
  cases hv : ValidateUpdateSubscription req with
  | some errs => simp [updateStatementWith, updateStatement, hv]
  | none =>
    obtain ⟨hs, -⟩ := ValidateUpdateSubscription_dates req hv
    have h1 : req.StartDate ≠ "" → parse req.StartDate = ParseMonthYear req.StartDate := by
      intro hne
      apply hparse
      intro e
      rcases hs with hs | ⟨t, ht⟩
      · exact hne hs
      · exact ParseMonthYear_null t (e ▸ ht)
    have h2 : req.EndDate ≠ "null" → parse req.EndDate = ParseMonthYear req.EndDate :=
      hparse _
    unfold updateStatementWith updateStatement
    simp only [hv]
    by_cases e1 : req.StartDate = "" <;> by_cases e2 : req.EndDate = "null"
    · simp [e1, e2]
    · simp [e1, h2 e2]
    · simp [e2, h1 e1]
    · simp [h1 e1, h2 e2]

/-- C15: a malformed date token never enters a query builder.  For a request
its validator accepts, the identifier and the tokens the handler parses
afterwards all parse: `CreateSubscription` and `AggregateSubscriptions` reach
their statement, and `UpdateSubscription` either reaches its statement or
answers `No fields to update`; none of them answers `Invalid user ID format` or
`Invalid start/end date format`.  For update the result does not depend on what
the parser would answer for the token `null`, which is never passed to it. -/
theorem validated_request_parses (uuidParse : String → Option UUID) :
    (∀ req : CreateSubscriptionRequest, ValidateCreateSubscription uuidParse req = none →
      ∃ u s, uuidParse req.UserID = some u ∧ ParseMonthYear req.StartDate = Except.ok s ∧
        (req.EndDate ≠ "" → ∃ e, ParseMonthYear req.EndDate = Except.ok e) ∧
        ∃ stmt, createStatement uuidParse req = Except.ok stmt ∧
          stmt.args.take 4 = [Value.str req.ServiceName, Value.int req.Price, Value.uuid u,
            Value.time s]) ∧
    (∀ (id : UUID) (now : Time) (req : UpdateSubscriptionRequest),
      ValidateUpdateSubscription req = none →
      (req.StartDate ≠ "" → ∃ s, ParseMonthYear req.StartDate = Except.ok s) ∧
      (req.EndDate ≠ "" → req.EndDate ≠ "null" →
        ∃ e, ParseMonthYear req.EndDate = Except.ok e) ∧
      req.StartDate ≠ "null" ∧
      ((∃ stmt, updateStatement id now req = Except.ok stmt) ∨
        updateStatement id now req =
          Except.error { message := "No fields to update", status := 400 }) ∧
      (∀ parse : String → Except String Time,
        (∀ s, s ≠ "null" → parse s = ParseMonthYear s) →
        updateStatementWith parse id now req = updateStatement id now req)) ∧
    (∀ req : AggregationRequest, ValidateAggregationRequest req = none →
      ∃ s e, ParseMonthYear req.StartDate = Except.ok s ∧
        ParseMonthYear req.EndDate = Except.ok e ∧
        ∃ stmt, aggregateStatement req = Except.ok stmt ∧
          stmt.args.take 2 = [Value.time s, Value.time e]) := by
  refine ⟨?_, ?_, ?_⟩
  · intro req hv
    obtain ⟨⟨u, hu⟩, ⟨s, hs⟩, he⟩ := ValidateCreateSubscription_valid uuidParse req hv
    refine ⟨u, s, hu, hs, he, ?_⟩
    by_cases e : req.EndDate = ""
    · simp [createStatement, hv, hu, hs, e]
    · obtain ⟨t, ht⟩ := he e
      simp [createStatement, hv, hu, hs, e, ht]
  · intro id now req hv
    obtain ⟨hs, he⟩ := ValidateUpdateSubscription_dates req hv
    refine ⟨?_, ?_, ?_, ?_, ?_⟩
    · intro hne
      rcases hs with hs | hs
      · exact absurd hs hne
      · exact hs
    · intro hne hnull
      rcases he with he | he | he
      · exact absurd he hne
      · exact absurd he hnull
      · exact he
    · intro e
      rcases hs with hs | ⟨t, ht⟩
      · rw [e] at hs
        exact absurd hs (by decide)
      · exact ParseMonthYear_null t (e ▸ ht)
    · rcases updateStatement_validated id now req hv with ⟨-, e⟩ | ⟨-, stmt, e, -⟩
      · exact Or.inr e
      · exact Or.inl ⟨stmt, e⟩
    · intro parse hparse
      exact updateStatementWith_eq parse hparse id now req
  · intro req hv
    obtain ⟨s, e, hs, he, hst⟩ := aggregateStatement_validated req hv
    refine ⟨s, e, hs, he, _, hst, ?_⟩
    cases req.UserID <;> cases req.ServiceName <;> rfl

/-- Witness for C15: the Netflix request reaches the INSERT statement with its
five arguments. -/
theorem validated_request_parses_witness :
    ValidateCreateSubscription
      (uuidParseOnly "abababab-abab-abab-abab-abababababab" sampleUUID)
      { ServiceName := "Netflix", Price := 999,
        UserID := "abababab-abab-abab-abab-abababababab", StartDate := "01-2024",
        EndDate := "" } = none ∧
    ∃ stmt, createStatement (uuidParseOnly "abababab-abab-abab-abab-abababababab" sampleUUID)
        { ServiceName := "Netflix", Price := 999,
          UserID := "abababab-abab-abab-abab-abababababab", StartDate := "01-2024",
          EndDate := "" } = Except.ok stmt :=
  ⟨by decide,
   ((validated_request_parses
      (uuidParseOnly "abababab-abab-abab-abab-abababababab" sampleUUID)).1
      { ServiceName := "Netflix", Price := 999,
        UserID := "abababab-abab-abab-abab-abababababab", StartDate := "01-2024",
        EndDate := "" } (by decide)).elim
    (fun _ h => h.elim (fun _ h => h.2.2.2.elim (fun stmt h => ⟨stmt, h.1⟩)))⟩

/-! ## Placeholders and arguments -/

/-- The pieces of a split with `b` appended to the last piece. -/
theorem stringsSplit_append_tail (sep : Char) (a b : List Char) (hb : sep ∉ b) :
    ∃ init last, stringsSplit sep a = init ++ [last] ∧
      stringsSplit sep (a ++ b) = init ++ [last ++ b] := by
  induction a with
  | nil =>
    refine ⟨[], [], rfl, ?_⟩
    simp [stringsSplit_of_not_mem sep b hb]
  | cons c cs ih =>
    obtain ⟨init, last, h1, h2⟩ := ih
    by_cases hc : c = sep
    · refine ⟨[] :: init, last, ?_, ?_⟩
      · simp [stringsSplit, hc, h1]
      · simp [stringsSplit, hc, h2]
    · cases init with
      | nil =>
        refine ⟨[], c :: last, ?_, ?_⟩
        · simp [stringsSplit, hc, h1]
        · simp [stringsSplit, hc, h2]
      | cons p ps =>
        refine ⟨(c :: p) :: ps, last, ?_, ?_⟩
        · simp [stringsSplit, hc, h1]
        · simp [stringsSplit, hc, h2]

theorem leadingNumber_append (p b : List Char)
    (hb : b = [] ∨ ∃ c t, b = c :: t ∧ isDigitChar c = false) :
    leadingNumber (p ++ b) = leadingNumber p := by
  have h : (p ++ b).takeWhile isDigitChar = p.takeWhile isDigitChar := by
    induction p with
    | nil =>
      rcases hb with rfl | ⟨c, t, rfl, hc⟩
      · rfl
      · simp [List.takeWhile, hc]
    | cons x xs ih =>
      simp only [List.cons_append, List.takeWhile]
      cases isDigitChar x
      · rfl
      · simp [ih]
  simp [leadingNumber, h]

/-- Text without `$` that does not start with a digit adds no placeholder and
changes none. -/
theorem placeholders_append (q t : String) (hd : '$' ∉ t.data)
    (hb : t.data = [] ∨ ∃ c r, t.data = c :: r ∧ isDigitChar c = false) :
    placeholders (q ++ t) = placeholders q := by
  obtain ⟨init, last, h1, h2⟩ := stringsSplit_append_tail '$' q.data t.data hd
  simp only [placeholders, String.data_append, h1, h2]
  cases init with
  | nil => simp
  | cons p ps =>
    simp [leadingNumber_append last t.data hb]

theorem digitChar_ne_dollar (d : Nat) (h : d < 10) : Nat.digitChar d ≠ '$' := by
  interval_cases d <;> decide

theorem toDigitsCore_no_dollar (f n : Nat) (ds : List Char) (h : ∀ c ∈ ds, c ≠ '$') :
    ∀ c ∈ Nat.toDigitsCore 10 f n ds, c ≠ '$' := by
  induction f generalizing n ds with
  | zero => simpa [Nat.toDigitsCore] using h
  | succ k ih =>
    have hd : ∀ c ∈ Nat.digitChar (n % 10) :: ds, c ≠ '$' := by
      intro c hc
      rcases List.mem_cons.mp hc with rfl | hc
      · exact digitChar_ne_dollar _ (Nat.mod_lt _ (by decide))
      · exact h c hc
    simp only [Nat.toDigitsCore]
    split
    · exact hd
    · exact ih _ _ hd

theorem toString_nat_no_dollar (n : Nat) : '$' ∉ (toString n).data := by
  intro hmem
  have h := toDigitsCore_no_dollar (n + 1) n [] (by simp) '$'
  exact h hmem rfl

theorem toString_int_no_dollar (i : Int) : '$' ∉ (toString i).data := by
  cases i with
  | ofNat n => exact toString_nat_no_dollar n
  | negSucc n =>
    intro hmem
    have h : (toString (Int.negSucc n)).data = '-' :: (toString (n + 1)).data := rfl
    rw [h] at hmem
    rcases List.mem_cons.mp hmem with h1 | h1
    · exact absurd h1 (by decide)
    · exact toString_nat_no_dollar _ h1

set_option maxRecDepth 100000 in
theorem updateColumnLists_line_up : updateColumnLists.all updateLinesUp = true := by
  decide

theorem updateAssignments_columns (req : UpdateSubscriptionRequest) :
    (updateAssignments req).map Prod.fst ∈ updateColumnLists := by
  by_cases h1 : req.ServiceName = "" <;> by_cases h2 : req.Price > 0 <;>
    by_cases h3 : req.StartDate = "" <;> by_cases h4 : req.EndDate = "" <;>
    simp [updateAssignments, h1, h2, h3, h4] <;> decide

theorem updateStatement_lines_up (id : UUID) (now : Time) (req : UpdateSubscriptionRequest)
    (stmt : UpdateStatement) (h : updateStatement id now req = Except.ok stmt) :
    stmt.setParts.map placeholders =
      (List.range' 1 stmt.setParts.length).map (fun k => [k]) ∧
    stmt.setParts.getLast? = some ("updated_at = $" ++ toString stmt.setParts.length) ∧
    placeholders stmt.query = List.range' 1 (stmt.setParts.length + 1) ∧
    stmt.query =
      "UPDATE subscriptions SET " ++ ", ".intercalate stmt.setParts ++ " WHERE id = $" ++
        toString (stmt.setParts.length + 1) ∧
    stmt.args.length = stmt.setParts.length + 1 ∧
    stmt.setParts =
      setFragments 1 ((updateAssignments req).map Prod.fst ++ ["updated_at"]) ∧
    stmt.args.map some =
      (updateAssignments req).map Prod.snd ++
        [some (Value.time now), some (Value.uuid id)] := by
  cases hv : ValidateUpdateSubscription req with
  | some errs => simp [updateStatement, hv] at h
  | none =>
    rcases updateStatement_validated id now req hv with ⟨-, e⟩ | ⟨-, stmt2, e, hsp, hargs, hq⟩
    · rw [e] at h
      cases h
    · rw [e] at h
      cases h
      have hcols := List.all_eq_true.mp updateColumnLists_line_up _
        (updateAssignments_columns req)
      simp only [updateLinesUp, Bool.and_eq_true, decide_eq_true_eq] at hcols
      obtain ⟨⟨⟨hlen, hfrag⟩, hlast⟩, hph⟩ := hcols
      rw [← hsp] at hlen hfrag hlast
      have hlen2 : ((updateAssignments req).map Prod.fst).length =
          (updateAssignments req).length := List.length_map _ _
      have hargslen : stmt.args.length = (updateAssignments req).length + 2 := by
        have := congrArg List.length hargs
        simpa using this
      refine ⟨hfrag, hlast, ?_, ?_, ?_, hsp, hargs⟩
      · rw [hq, hsp, ← hlen2, hph, ← hsp, hlen]
      · rw [hlen, hlen2]
        exact hq
      · rw [hargslen, hlen, hlen2]

set_option maxRecDepth 100000 in
theorem aggregateStatement_lines_up (req : AggregationRequest) (stmt : Statement)
    (h : aggregateStatement req = Except.ok stmt) :
    placeholders stmt.query = List.range' 1 stmt.args.length := by
  cases hv : ValidateAggregationRequest req with
  | some errs => simp [aggregateStatement, hv] at h
  | none =>
    obtain ⟨s, e, -, -, hst⟩ := aggregateStatement_validated req hv
    rw [hst] at h
    cases h
    have p0 : placeholders aggregateBaseQuery = [1, 2] := by decide
    have p1 : placeholders (aggregateBaseQuery ++ " AND user_id = $3") = [1, 2, 3] := by
      decide
    have p2 : placeholders (aggregateBaseQuery ++ " AND service_name ILIKE $3") =
        [1, 2, 3] := by decide
    have p3 : placeholders
        (aggregateBaseQuery ++ " AND user_id = $3 AND service_name ILIKE $4") =
        [1, 2, 3, 4] := by decide
    cases req.UserID <;> cases req.ServiceName
    · exact p0
    · exact p2
    · exact p1
    · exact p3

set_option maxRecDepth 100000 in
theorem listStatement_lines_up (uuidParse : String → Option UUID) (params : ListParams)
    (stmt : ListStatement) (h : listStatement uuidParse params = Except.ok stmt) :
    placeholders stmt.query = List.range' 1 stmt.args.length := by
  have hu : params.user_id = "" ∨ (uuidParse params.user_id).isSome = true := by
    by_cases h0 : params.user_id = ""
    · exact Or.inl h0
    · right
      cases hp : uuidParse params.user_id with
      | none => simp [listStatement, h0, hp] at h
      | some u => rfl
  obtain ⟨stmt2, hst, -, -, hq, hlen⟩ := listStatement_ok uuidParse params hu
  rw [hst] at h
  cases h
  have htail : ∀ q : String,
      placeholders (q ++ " ORDER BY created_at DESC" ++ " LIMIT " ++ toString stmt.limit ++
        (((Atoi params.offset.data).filter (fun n => decide (0 ≤ n))).map
          (fun n => " OFFSET " ++ toString n)).getD "") = placeholders q := by
    intro q
    have hoff : '$' ∉ ((((Atoi params.offset.data).filter (fun n => decide (0 ≤ n))).map
        (fun n => " OFFSET " ++ toString n)).getD "").data := by
      cases ((Atoi params.offset.data).filter (fun n => decide (0 ≤ n))) with
      | none => simp
      | some n =>
        have h1 : '$' ∉ (" OFFSET " : String).data := by decide
        simp only [Option.map_some', Option.getD_some, String.data_append, List.mem_append,
          not_or]
        exact ⟨h1, toString_int_no_dollar n⟩
    have h1 : '$' ∉ (" ORDER BY created_at DESC" : String).data := by decide
    have h2 : '$' ∉ (" LIMIT " : String).data := by decide
    rw [String.append_assoc, String.append_assoc, String.append_assoc]
    apply placeholders_append
    · simp only [String.data_append, List.mem_append, not_or]
      exact ⟨h1, h2, toString_int_no_dollar _, hoff⟩
    · have key : ∀ x : String, (" ORDER BY created_at DESC" ++ x).data =
          ' ' :: (("ORDER BY created_at DESC" : String).data ++ x.data) := by
        intro x
        rw [String.data_append]
        rfl
      exact Or.inr ⟨' ', _, key _, by decide⟩
  rw [hq, htail, hlen]
  by_cases hu0 : params.user_id = "" <;> by_cases hs : params.service_name = "" <;>
    simp only [hu0, hs, ne_eq, not_true_eq_false, not_false_eq_true, if_true, if_false] <;>
    decide

/-- C16: placeholders and bound arguments line up.  For every update request
that reaches the store, with `n` SET fragments: the k-th fragment holds exactly
the placeholder `$k`, the last fragment is `updated_at = $n`, the statement
holds `$1` to `$(n+1)` in order with `WHERE id = $(n+1)` last, there are `n+1`
arguments, and fragments and arguments are those of the assignments in order,
followed by the timestamp and the record id.  For every statement
`AggregateSubscriptions` and `ListSubscriptions` build, the placeholders are
exactly `$1` to `$m` in order of appearance, `m` being the number of
arguments, whichever optional filters are present. -/
theorem placeholders_line_up :
    (∀ (id : UUID) (now : Time) (req : UpdateSubscriptionRequest) (stmt : UpdateStatement),
      updateStatement id now req = Except.ok stmt →
      stmt.setParts.map placeholders =
        (List.range' 1 stmt.setParts.length).map (fun k => [k]) ∧
      stmt.setParts.getLast? = some ("updated_at = $" ++ toString stmt.setParts.length) ∧
      placeholders stmt.query = List.range' 1 (stmt.setParts.length + 1) ∧
      stmt.query =
        "UPDATE subscriptions SET " ++ ", ".intercalate stmt.setParts ++ " WHERE id = $" ++
          toString (stmt.setParts.length + 1) ∧
      stmt.args.length = stmt.setParts.length + 1 ∧
      stmt.setParts =
        setFragments 1 ((updateAssignments req).map Prod.fst ++ ["updated_at"]) ∧
      stmt.args.map some =
        (updateAssignments req).map Prod.snd ++
          [some (Value.time now), some (Value.uuid id)]) ∧
    (∀ (req : AggregationRequest) (stmt : Statement),
      aggregateStatement req = Except.ok stmt →
      placeholders stmt.query = List.range' 1 stmt.args.length) ∧
    (∀ (uuidParse : String → Option UUID) (params : ListParams) (stmt : ListStatement),
      listStatement uuidParse params = Except.ok stmt →
      placeholders stmt.query = List.range' 1 stmt.args.length) :=
  ⟨updateStatement_lines_up, aggregateStatement_lines_up, listStatement_lines_up⟩

set_option maxRecDepth 100000 in
/-- Witness for C16: an update of name and end date, and a listing with both
filters and pagination. -/
theorem placeholders_line_up_witness :
    updateStatement sampleUUID (timeDate 2026 11 1 0 0 0 0 Location.UTC)
      { ServiceName := "Netflix", Price := 0, StartDate := "", EndDate := "null" } =
      Except.ok
        { setParts := ["service_name = $1", "end_date = $2", "updated_at = $3"],
          query := "UPDATE subscriptions SET service_name = $1, end_date = $2, updated_at = $3 WHERE id = $4",
          args := [Value.str "Netflix", Value.null,
            Value.time (timeDate 2026 11 1 0 0 0 0 Location.UTC), Value.uuid sampleUUID] } ∧
    placeholders "UPDATE subscriptions SET service_name = $1, end_date = $2, updated_at = $3 WHERE id = $4" =
      List.range' 1 4 ∧
    listStatement (uuidParseOnly "abababab-abab-abab-abab-abababababab" sampleUUID)
      { user_id := "abababab-abab-abab-abab-abababababab", service_name := "net",
        limit := "50", offset := "10" } =
      Except.ok
        { query := "SELECT * FROM subscriptions WHERE user_id = $1 AND service_name ILIKE $2 ORDER BY created_at DESC LIMIT 50 OFFSET 10",
          args := [Value.uuid sampleUUID, Value.str "%net%"], limit := 50, offset := 10 } ∧
    placeholders "SELECT * FROM subscriptions WHERE user_id = $1 AND service_name ILIKE $2 ORDER BY created_at DESC LIMIT 50 OFFSET 10" =
      List.range' 1 2 :=
  ⟨by decide,
   (placeholders_line_up.1 sampleUUID (timeDate 2026 11 1 0 0 0 0 Location.UTC)
      { ServiceName := "Netflix", Price := 0, StartDate := "", EndDate := "null" }
      { setParts := ["service_name = $1", "end_date = $2", "updated_at = $3"],
        query := "UPDATE subscriptions SET service_name = $1, end_date = $2, updated_at = $3 WHERE id = $4",
        args := [Value.str "Netflix", Value.null,
          Value.time (timeDate 2026 11 1 0 0 0 0 Location.UTC), Value.uuid sampleUUID] }
      (by decide)).2.2.1,
   by decide,
   placeholders_line_up.2.2
      (uuidParseOnly "abababab-abab-abab-abab-abababababab" sampleUUID)
      { user_id := "abababab-abab-abab-abab-abababababab", service_name := "net",
        limit := "50", offset := "10" }
      { query := "SELECT * FROM subscriptions WHERE user_id = $1 AND service_name ILIKE $2 ORDER BY created_at DESC LIMIT 50 OFFSET 10",
        args := [Value.uuid sampleUUID, Value.str "%net%"], limit := 50, offset := 10 }
      (by decide)⟩

end SubscriptionAggregator
